import Mathlib

/-!
# go-scalr: runs and state versions

A shallow embedding of `run.go` and `state_version.go`.

* Go strings are Lean `String`s (so only valid UTF-8 contents are covered).
* A Go pointer is an `Option`; a Go slice is a `List`; `nil` is `none` / `[]`.
* The API client (`client.newRequest`, `client.do`) and the identifier
  validator (`validStringID`) are declared in files of the package that are
  not among the verified ones. They are parameters of the development: every
  theorem holds for every validator and every client.
* The client may be stateful: its two methods thread a state of type `σ`.
  Every call that an operation makes on the client is appended to a call log,
  so that "the operation calls `newRequest`" is a statement about that log.
-/

namespace scalr

/-! ## Values shared by the operations -/

/-- Go `time.Time`, kept as an integer instant; `0` is the zero time. -/
abbrev Time := Int

/-- A Go `error` that is not nil. `errorsNew msg` is the value of
`errors.New(msg)`; `other e` is any error produced elsewhere (transport,
server-reported, ...). -/
inductive GoError (E : Type) where
  | errorsNew (msg : String)
  | other (e : E)
  deriving DecidableEq, Repr

/-- Go `http.Header`: canonical header name to list of values. -/
abbrev Header := List (String × List String)

/-- Go `Header.Set(key, value)` for a key that is already in canonical MIME
form (as `Content-Type` is): the entry for `key` is replaced by the single
value. -/
def Header.Set (h : Header) (key value : String) : Header :=
  (key, [value]) :: h.filter (fun kv => kv.1 != key)

/-- Go `Header.Get(key)` for a canonical key: the first value, or `""`. -/
def Header.Get (h : Header) (key : String) : String :=
  match h.lookup key with
  | some (v :: _) => v
  | _ => ""

/-- The request object that `client.newRequest` builds. Only its `Header` is
touched by the operations; everything else is the abstract `rest`. -/
structure Request (P : Type) where
  Header : Header
  rest : P
  deriving DecidableEq, Repr

/-! ## Records -/

/-- Go `RunStatus`, a string type. -/
abbrev RunStatus := String

def RunApplied : RunStatus := "applied"
def RunApplyQueued : RunStatus := "apply_queued"
def RunApplying : RunStatus := "applying"
def RunCanceled : RunStatus := "canceled"
def RunConfirmed : RunStatus := "confirmed"
def RunCostEstimated : RunStatus := "cost_estimated"
def RunCostEstimating : RunStatus := "cost_estimating"
def RunDiscarded : RunStatus := "discarded"
def RunErrored : RunStatus := "errored"
def RunPending : RunStatus := "pending"
def RunPlanQueued : RunStatus := "plan_queued"
def RunPlanned : RunStatus := "planned"
def RunPlannedAndFinished : RunStatus := "planned_and_finished"
def RunPlanning : RunStatus := "planning"
def RunPolicyChecked : RunStatus := "policy_checked"
def RunPolicyChecking : RunStatus := "policy_checking"
def RunPolicyOverride : RunStatus := "policy_override"
def RunPolicySoftFailed : RunStatus := "policy_soft_failed"

/-- Go `RunSource`, a string type. -/
abbrev RunSource := String

def RunSourceAPI : RunSource := "api"
def RunSourceConfigurationVersion : RunSource := "configuration-version"
def RunSourceUI : RunSource := "ui"
def RunSourceVCS : RunSource := "vcs"
def RunSourceCLI : RunSource := "cli"

/-- Go `Workspace`. The record is declared outside the verified files; the
operations read its `ID` only, the other fields are the abstract `rest`. -/
structure Workspace (Ext : Type) where
  ID : String
  rest : Ext
  deriving DecidableEq, Repr

/-- Go `ConfigurationVersion`. Declared outside the verified files; the
operations read its `ID` only, the other fields are the abstract `rest`. -/
structure ConfigurationVersion (Ext : Type) where
  ID : String
  rest : Ext
  deriving DecidableEq, Repr

/-- Go `StatusTransition`. -/
structure StatusTransition where
  ID : String
  Status : RunStatus
  Reason : Option String
  CreatedAt : Time
  deriving DecidableEq, Repr

/-- Go `Run`. The records `VcsRevision`, `Apply`, `CostEstimate`, `Plan` and
`PolicyCheck` are declared outside the verified files and never inspected:
they are the abstract `Ext`. -/
structure Run (Ext : Type) where
  ID : String
  Source : RunSource
  Message : String
  IsDestroy : Bool
  CreatedAt : Time
  Status : RunStatus
  VcsRevision : Option Ext
  Apply : Option Ext
  ConfigurationVersion : Option (ConfigurationVersion Ext)
  CostEstimate : Option Ext
  Plan : Option Ext
  PolicyChecks : List (Option Ext)
  Workspace : Option (Workspace Ext)
  StatusTransitions : List (Option StatusTransition)
  deriving DecidableEq, Repr

/-- Go `Run{}`: every field has its zero value. -/
def Run.zero {Ext : Type} : Run Ext :=
  { ID := "", Source := "", Message := "", IsDestroy := false, CreatedAt := 0,
    Status := "", VcsRevision := none, Apply := none,
    ConfigurationVersion := none, CostEstimate := none, Plan := none,
    PolicyChecks := [], Workspace := none, StatusTransitions := [] }

/-- Go `RunCreateOptions`. -/
structure RunCreateOptions (Ext : Type) where
  ID : String
  ConfigurationVersion : Option (ConfigurationVersion Ext)
  Workspace : Option (Workspace Ext)
  deriving DecidableEq, Repr

/-- Go `RunApplyOptions`. -/
structure RunApplyOptions where
  Comment : String
  ApplyAt : Option Time
  deriving DecidableEq, Repr

/-- Go `RunCancelOptions`. -/
structure RunCancelOptions where
  Comment : String
  deriving DecidableEq, Repr

/-- Go `RunDiscardOptions`. -/
structure RunDiscardOptions where
  Comment : String
  deriving DecidableEq, Repr

/-- The anonymous struct with the single field `Include` (tagged
`url:"include"`) that `runs.Read` passes to `newRequest`. -/
structure RunReadQuery where
  Include : String
  deriving DecidableEq, Repr

/-- Go `StateVersionOutput`; `Value` is an `interface{}`. -/
structure StateVersionOutput (Ext : Type) where
  Name : String
  Value : Option Ext
  Sensitive : Bool
  deriving DecidableEq, Repr

/-- Go `StateVersionResource`. -/
structure StateVersionResource where
  Type_ : String
  Module : String
  Address : String
  deriving DecidableEq, Repr

/-- Go `StateVersion`; the previous/next links make the record recursive. -/
inductive StateVersion (Ext : Type) where
  | mk (ID : String)
       (Outputs : List (Option (StateVersionOutput Ext)))
       (Resources : List (Option StateVersionResource))
       (Force : Bool)
       (Lineage : String)
       (MD5 : String)
       (Serial : Int)
       (Size : Int)
       (CreatedAt : Time)
       (Run : Option (Run Ext))
       (NextStateVersion : Option (StateVersion Ext))
       (PreviousStateVersion : Option (StateVersion Ext))
       (Workspace : Option (Workspace Ext))

/-- Go `StateVersion{}`: every field has its zero value. -/
def StateVersion.zero {Ext : Type} : StateVersion Ext :=
  .mk "" [] [] false "" "" 0 0 0 none none none none

/-! ## The API client -/

/-- The third argument of `client.newRequest` (an `interface{}`): the values
the operations of these two files pass. -/
inductive Body (Ext : Type) where
  | nil
  | runCreateOptions (o : RunCreateOptions Ext)
  | runReadQuery (o : RunReadQuery)
  | runApplyOptions (o : RunApplyOptions)
  | runCancelOptions (o : RunCancelOptions)
  | runDiscardOptions (o : RunDiscardOptions)
  deriving DecidableEq, Repr

/-- The kind of the third argument of `client.do`: `nil`, a `*Run` or a
`*StateVersion`. -/
inductive Target where
  | nil
  | run
  | stateVersion
  deriving DecidableEq, Repr

/-- The record behind a decode target. -/
def Target.Obj (Ext : Type) : Target → Type
  | .nil => Unit
  | .run => Run Ext
  | .stateVersion => StateVersion Ext

/-- The API client. `newRequest` follows the Go convention that a nil error
comes with a usable request. `do_` (Go `do`) receives the record behind the
decode pointer and returns that record as it is after the call, with the
error (`none` is nil). Both thread the client's state `σ`. -/
structure Client (σ Ctx Ext P E : Type) where
  newRequest : String → String → Body Ext → σ → Except (GoError E) (Request P) × σ
  do_ : Ctx → Request P → (t : Target) → t.Obj Ext → σ →
    (t.Obj Ext × Option (GoError E)) × σ

/-- One call on the client, as recorded in the call log. -/
inductive Call (Ctx Ext P : Type) where
  | newRequest (method path : String) (body : Body Ext)
  | do_ (ctx : Ctx) (req : Request P) (t : Target)
  deriving DecidableEq, Repr

/-- The client's state together with the log of the calls made on it. -/
structure World (σ Ctx Ext P : Type) where
  state : σ
  calls : List (Call Ctx Ext P)

/-- Calling `client.newRequest`: the call is logged and the client's state
advances. -/
def Client.callNewRequest {σ Ctx Ext P E : Type} (c : Client σ Ctx Ext P E)
    (method path : String) (body : Body Ext) (w : World σ Ctx Ext P) :
    Except (GoError E) (Request P) × World σ Ctx Ext P :=
  let r := c.newRequest method path body w.state
  (r.1, { state := r.2, calls := w.calls ++ [Call.newRequest method path body] })

/-- Calling `client.do`: the call is logged and the client's state advances. -/
def Client.callDo {σ Ctx Ext P E : Type} (c : Client σ Ctx Ext P E)
    (ctx : Ctx) (req : Request P) (t : Target) (v : t.Obj Ext) (w : World σ Ctx Ext P) :
    (t.Obj Ext × Option (GoError E)) × World σ Ctx Ext P :=
  let r := c.do_ ctx req t v w.state
  (r.1, { state := r.2, calls := w.calls ++ [Call.do_ ctx req t] })

/-- Number of `newRequest` calls in a log. -/
def countNewRequest {Ctx Ext P : Type} (l : List (Call Ctx Ext P)) : Nat :=
  (l.filter (fun c => match c with | .newRequest _ _ _ => true | _ => false)).length

/-- Number of `do` calls in a log. -/
def countDo {Ctx Ext P : Type} (l : List (Call Ctx Ext P)) : Nat :=
  (l.filter (fun c => match c with | .do_ _ _ _ => true | _ => false)).length

/-! ## `net/url` escaping -/

/-- The two escaping modes of Go `net/url` that `QueryEscape` and
`PathEscape` select. -/
inductive encoding where
  | encodePathSegment
  | encodeQueryComponent
  deriving DecidableEq, Repr

/-- Go `net/url.shouldEscape` for the two modes above, on a byte `c`. -/
def shouldEscape (c : Nat) (mode : encoding) : Bool :=
  if ('a'.toNat ≤ c && c ≤ 'z'.toNat) || ('A'.toNat ≤ c && c ≤ 'Z'.toNat)
      || ('0'.toNat ≤ c && c ≤ '9'.toNat) then
    false
  else if c == '-'.toNat || c == '_'.toNat || c == '.'.toNat || c == '~'.toNat then
    false
  else if c == '$'.toNat || c == '&'.toNat || c == '+'.toNat || c == ','.toNat
      || c == '/'.toNat || c == ':'.toNat || c == ';'.toNat || c == '='.toNat
      || c == '?'.toNat || c == '@'.toNat then
    match mode with
    | .encodePathSegment =>
      c == '/'.toNat || c == ';'.toNat || c == ','.toNat || c == '?'.toNat
    | .encodeQueryComponent => true
  else
    true

/-- The bytes of a Go string. -/
def bytesOf (s : String) : List Nat :=
  s.data.flatMap (fun c => (String.utf8EncodeChar c).map UInt8.toNat)

/-- Go `upperhex`. -/
def upperhex : List Char := "0123456789ABCDEF".data

/-- The output of Go `net/url.escape` for one input byte. -/
def escapeByte (c : Nat) (mode : encoding) : List Char :=
  if c == ' '.toNat && mode == .encodeQueryComponent then ['+']
  else if shouldEscape c mode then
    ['%', upperhex.getD (c >>> 4) '0', upperhex.getD (c &&& 15) '0']
  else [Char.ofNat c]

/-- Go `net/url.escape`: a first pass counts the bytes to rewrite, and the
string is returned as it is when there are none; otherwise every byte is
rewritten by `escapeByte`. -/
def escape (s : String) (mode : encoding) : String :=
  let spaceCount := ((bytesOf s).filter (fun c =>
    shouldEscape c mode && (c == ' '.toNat && mode == .encodeQueryComponent))).length
  let hexCount := ((bytesOf s).filter (fun c =>
    shouldEscape c mode && !(c == ' '.toNat && mode == .encodeQueryComponent))).length
  if spaceCount == 0 && hexCount == 0 then s
  else String.mk ((bytesOf s).flatMap (fun c => escapeByte c mode))

/-- Go `url.QueryEscape`. -/
def QueryEscape (s : String) : String := escape s .encodeQueryComponent

/-- Go `url.PathEscape`. -/
def PathEscape (s : String) : String := escape s .encodePathSegment

/-- The characters an identifier of the plain form is made of: ASCII letters,
digits, `-`, `_` and `.`. -/
def plainChar (c : Char) : Bool :=
  c.isAlpha || c.isDigit || c == '-' || c == '_' || c == '.'

/-- An identifier made only of plain characters. -/
def plainID (s : String) : Bool := s.data.all plainChar

/-! ## `run.go` -/

section operations

variable {σ Ctx Ext P E : Type}

/-- Go `RunCreateOptions.valid`. The identifier validator `validStringID` is a
parameter; every call site passes it the address of a string variable, so it
is a predicate on strings here. `none` is a nil error. -/
def RunCreateOptions.valid (validStringID : String → Bool) (o : RunCreateOptions Ext) :
    Option (GoError E) :=
  match o.Workspace with
  | none => some (.errorsNew "workspace is required")
  | some ws =>
    if !validStringID ws.ID then
      some (.errorsNew "invalid value for workspace ID")
    else
      match o.ConfigurationVersion with
      | none => some (.errorsNew "configuration-version is required")
      | some cv =>
        if !validStringID cv.ID then
          some (.errorsNew "invalid value for configuration-version ID")
        else
          none

/-- Go `runs`: the receiver, holding the client. -/
structure runs (σ Ctx Ext P E : Type) where
  client : Client σ Ctx Ext P E

/-- Go `runs.Create`. The result is the pair of Go return values together with
the world after the call. -/
def runs.Create (validStringID : String → Bool) (s : runs σ Ctx Ext P E) (ctx : Ctx)
    (options : RunCreateOptions Ext) (w : World σ Ctx Ext P) :
    (Option (Run Ext) × Option (GoError E)) × World σ Ctx Ext P :=
  match options.valid validStringID with
  | some err => ((none, some err), w)
  | none =>
    -- Make sure we do not send a user provided ID.
    let options := { options with ID := "" }
    match s.client.callNewRequest "POST" "runs" (.runCreateOptions options) w with
    | (.error err, w) => ((none, some err), w)
    | (.ok req, w) =>
      match s.client.callDo ctx req .run Run.zero w with
      | ((_, some err), w) => ((none, some err), w)
      | ((r, none), w) => ((some r, none), w)

/-- Go `runs.Read`. -/
def runs.Read (validStringID : String → Bool) (s : runs σ Ctx Ext P E) (ctx : Ctx)
    (runID : String) (w : World σ Ctx Ext P) :
    (Option (Run Ext) × Option (GoError E)) × World σ Ctx Ext P :=
  if !validStringID runID then
    ((none, some (.errorsNew "invalid value for run ID")), w)
  else
    let options : RunReadQuery := { Include := "vcs-revision,status-transitions" }
    let u := "runs/" ++ QueryEscape runID
    match s.client.callNewRequest "GET" u (.runReadQuery options) w with
    | (.error err, w) => ((none, some err), w)
    | (.ok req, w) =>
      match s.client.callDo ctx req .run Run.zero w with
      | ((_, some err), w) => ((none, some err), w)
      | ((r, none), w) => ((some r, none), w)

/-- Go `runs.Apply`. The result is the returned error (`none` is nil) together
with the world after the call. -/
def runs.Apply (validStringID : String → Bool) (s : runs σ Ctx Ext P E) (ctx : Ctx)
    (runID : String) (options : RunApplyOptions) (w : World σ Ctx Ext P) :
    Option (GoError E) × World σ Ctx Ext P :=
  if !validStringID runID then
    (some (.errorsNew "invalid value for run ID"), w)
  else
    let u := "runs/" ++ PathEscape runID ++ "/actions/apply"
    match s.client.callNewRequest "POST" u (.runApplyOptions options) w with
    | (.error err, w) => (some err, w)
    | (.ok req, w) =>
      let req := { req with Header := req.Header.Set "Content-Type" "application/json" }
      let r := s.client.callDo ctx req .nil () w
      (r.1.2, r.2)

/-- Go `runs.Cancel`. -/
def runs.Cancel (validStringID : String → Bool) (s : runs σ Ctx Ext P E) (ctx : Ctx)
    (runID : String) (options : RunCancelOptions) (w : World σ Ctx Ext P) :
    Option (GoError E) × World σ Ctx Ext P :=
  if !validStringID runID then
    (some (.errorsNew "invalid value for run ID"), w)
  else
    let u := "runs/" ++ PathEscape runID ++ "/actions/cancel"
    match s.client.callNewRequest "POST" u (.runCancelOptions options) w with
    | (.error err, w) => (some err, w)
    | (.ok req, w) =>
      let req := { req with Header := req.Header.Set "Content-Type" "application/json" }
      let r := s.client.callDo ctx req .nil () w
      (r.1.2, r.2)

/-- Go `runs.Discard`. -/
def runs.Discard (validStringID : String → Bool) (s : runs σ Ctx Ext P E) (ctx : Ctx)
    (runID : String) (options : RunDiscardOptions) (w : World σ Ctx Ext P) :
    Option (GoError E) × World σ Ctx Ext P :=
  if !validStringID runID then
    (some (.errorsNew "invalid value for run ID"), w)
  else
    let u := "runs/" ++ PathEscape runID ++ "/actions/discard"
    match s.client.callNewRequest "POST" u (.runDiscardOptions options) w with
    | (.error err, w) => (some err, w)
    | (.ok req, w) =>
      let req := { req with Header := req.Header.Set "Content-Type" "application/json" }
      let r := s.client.callDo ctx req .nil () w
      (r.1.2, r.2)

/-! ## `state_version.go` -/

/-- Go `stateVersions`: the receiver, holding the client. -/
structure stateVersions (σ Ctx Ext P E : Type) where
  client : Client σ Ctx Ext P E

/-- Go `stateVersions.Read`. -/
def stateVersions.Read (validStringID : String → Bool) (s : stateVersions σ Ctx Ext P E)
    (ctx : Ctx) (stateVersionID : String) (w : World σ Ctx Ext P) :
    (Option (StateVersion Ext) × Option (GoError E)) × World σ Ctx Ext P :=
  if !validStringID stateVersionID then
    ((none, some (.errorsNew "invalid value for state version ID")), w)
  else
    let u := "state-versions/" ++ PathEscape stateVersionID
    match s.client.callNewRequest "GET" u .nil w with
    | (.error err, w) => ((none, some err), w)
    | (.ok req, w) =>
      match s.client.callDo ctx req .stateVersion StateVersion.zero w with
      | ((_, some err), w) => ((none, some err), w)
      | ((sv, none), w) => ((some sv, none), w)

/-- Go `stateVersions.ReadCurrentForWorkspace`. -/
def stateVersions.ReadCurrentForWorkspace (validStringID : String → Bool)
    (s : stateVersions σ Ctx Ext P E) (ctx : Ctx) (workspaceID : String)
    (w : World σ Ctx Ext P) :
    (Option (StateVersion Ext) × Option (GoError E)) × World σ Ctx Ext P :=
  if !validStringID workspaceID then
    ((none, some (.errorsNew "invalid value for workspace ID")), w)
  else
    let u := "workspaces/" ++ PathEscape workspaceID ++ "/current-state-version"
    match s.client.callNewRequest "GET" u .nil w with
    | (.error err, w) => ((none, some err), w)
    | (.ok req, w) =>
      match s.client.callDo ctx req .stateVersion StateVersion.zero w with
      | ((_, some err), w) => ((none, some err), w)
      | ((sv, none), w) => ((some sv, none), w)

end operations

/-! ## A concrete client, for evaluating the operations -/

/-- A validator used in examples: non-empty and made of plain characters. -/
def sampleValid (s : String) : Bool := s != "" && plainID s

/-- A client whose requests echo method and path and whose `do` succeeds
leaving the record as it is. The state counts the calls. -/
def echoClient : Client Nat Unit Unit (String × String) Unit :=
  { newRequest := fun m p _ n => (.ok { Header := [], rest := (m, p) }, n + 1)
    do_ := fun _ _ _ v n => ((v, none), n + 1) }

/-- A client whose `do` fails. -/
def failDoClient : Client Nat Unit Unit (String × String) Unit :=
  { newRequest := fun m p _ n => (.ok { Header := [], rest := (m, p) }, n + 1)
    do_ := fun _ _ _ v n => ((v, some (.other ())), n + 1) }

/-- The world before any call. -/
def World.init : World Nat Unit Unit (String × String) :=
  { state := 0, calls := [] }

/-- Options with both references nil. -/
def bothNil : RunCreateOptions Unit :=
  { ID := "", ConfigurationVersion := none, Workspace := none }

/-- Options with the two references of the scenario and a caller-supplied ID. -/
def sampleOptions : RunCreateOptions Unit :=
  { ID := "run-mine", ConfigurationVersion := some { ID := "cv-abc123", rest := () },
    Workspace := some { ID := "ws-abc123", rest := () } }

/-- The two shapes a pair of Go return values (object, error) may have when
there is no in-between result: an object with a nil error, or a nil object
with an error. -/
def allOrNothing {α β : Type} (r : Option α × Option β) : Prop :=
  (r.1 ≠ none ∧ r.2 = none) ∨ (r.1 = none ∧ r.2 ≠ none)

/-! ## Escaping leaves plain identifiers unchanged -/

theorem plainChar_toNat (c : Char) (h : plainChar c = true) :
    ('a'.toNat ≤ c.toNat ∧ c.toNat ≤ 'z'.toNat) ∨ ('A'.toNat ≤ c.toNat ∧ c.toNat ≤ 'Z'.toNat)
      ∨ ('0'.toNat ≤ c.toNat ∧ c.toNat ≤ '9'.toNat)
      ∨ c.toNat = '-'.toNat ∨ c.toNat = '_'.toNat ∨ c.toNat = '.'.toNat := by
  simp only [plainChar, Char.isAlpha, Char.isUpper, Char.isLower, Char.isDigit,
    Bool.or_eq_true, Bool.and_eq_true, decide_eq_true_eq, beq_iff_eq] at h
  rcases h with (((((⟨h1, h2⟩ | ⟨h1, h2⟩) | ⟨h1, h2⟩) | h) | h) | h)
  · have a : 65 ≤ c.val.toNat := h1
    have b : c.val.toNat ≤ 90 := h2
    exact Or.inr (Or.inl ⟨a, b⟩)
  · have a : 97 ≤ c.val.toNat := h1
    have b : c.val.toNat ≤ 122 := h2
    exact Or.inl ⟨a, b⟩
  · have a : 48 ≤ c.val.toNat := h1
    have b : c.val.toNat ≤ 57 := h2
    exact Or.inr (Or.inr (Or.inl ⟨a, b⟩))
  · subst h; decide
  · subst h; decide
  · subst h; decide

theorem bytes_ascii (c : Char) (h : c.toNat < 128) :
    (String.utf8EncodeChar c).map UInt8.toNat = [c.toNat] := by
  have e : c.val.toNat < 128 := h
  have h1 : c.val ≤ 127 := by
    show c.val.toNat ≤ 127
    omega
  unfold String.utf8EncodeChar
  simp only [h1, if_true, List.map]
  show [c.val.toNat % 256] = [c.val.toNat]
  rw [Nat.mod_eq_of_lt (by omega)]

theorem charNat : 'a'.toNat = 97 ∧ 'z'.toNat = 122 ∧ 'A'.toNat = 65 ∧ 'Z'.toNat = 90
    ∧ '0'.toNat = 48 ∧ '9'.toNat = 57 ∧ '-'.toNat = 45 ∧ '_'.toNat = 95 ∧ '.'.toNat = 46 := by
  decide

theorem plainChar_lt (c : Char) (h : plainChar c = true) : c.toNat < 128 := by
  have := plainChar_toNat c h
  obtain ⟨a1, a2, a3, a4, a5, a6, a7, a8, a9⟩ := charNat
  rw [a1, a2, a3, a4, a5, a6, a7, a8, a9] at this
  omega

theorem shouldEscape_plainChar (c : Char) (mode : encoding) (h : plainChar c = true) :
    shouldEscape c.toNat mode = false := by
  have hc := plainChar_toNat c h
  obtain ⟨a1, a2, a3, a4, a5, a6, a7, a8, a9⟩ := charNat
  rw [a1, a2, a3, a4, a5, a6, a7, a8, a9] at hc
  unfold shouldEscape
  split
  · rfl
  · rename_i h1
    split
    · rfl
    · rename_i h2
      exfalso
      simp only [a1, a2, a3, a4, a5, a6, a7, a8, a9, Bool.or_eq_true, Bool.and_eq_true,
        decide_eq_true_eq, beq_iff_eq] at h1 h2
      omega

theorem bytesOf_plain (l : List Char) (h : l.all plainChar = true) :
    bytesOf ⟨l⟩ = l.map Char.toNat := by
  induction l with
  | nil => rfl
  | cons c t ih =>
    simp only [List.all_cons, Bool.and_eq_true] at h
    have hc := bytes_ascii c (plainChar_lt c h.1)
    have := ih h.2
    simp only [bytesOf, List.flatMap_cons, List.map_cons] at this ⊢
    rw [hc, this]
    rfl

theorem escape_plain (s : String) (mode : encoding) (h : plainID s = true) :
    escape s mode = s := by
  obtain ⟨l⟩ := s
  have hb := bytesOf_plain l h
  have hf : ∀ p : Nat → Bool, ((bytesOf ⟨l⟩).filter (fun c => shouldEscape c mode && p c)) = [] := by
    intro p
    rw [hb, List.filter_eq_nil_iff]
    intro b hb'
    obtain ⟨c, hc, rfl⟩ := List.mem_map.1 hb'
    have hp : plainChar c = true := List.all_eq_true.1 h c hc
    simp [shouldEscape_plainChar c mode hp]
  unfold escape
  simp only [hf, List.length_nil]
  rfl

/-! ## Identifier validation comes first -/

section claims

variable {σ Ctx Ext P E : Type}

/-- C1: for every ID that the validator rejects, each of the six ID-accepting
operations (runs.Read, runs.Apply, runs.Cancel, runs.Discard,
stateVersions.Read, stateVersions.ReadCurrentForWorkspace) returns its
invalid-identifier error and no object, and leaves the world as it was: the
client's state is untouched and the call log has no new entry, so neither
`newRequest` nor `do` is called. -/
theorem invalid_id_rejected_without_calls (validStringID : String → Bool)
    (s : runs σ Ctx Ext P E) (sv : stateVersions σ Ctx Ext P E) (ctx : Ctx) (id : String)
    (oa : RunApplyOptions) (oc : RunCancelOptions) (od : RunDiscardOptions)
    (w : World σ Ctx Ext P) (h : validStringID id = false) :
    s.Read validStringID ctx id w
        = ((none, some (.errorsNew "invalid value for run ID")), w)
      ∧ s.Apply validStringID ctx id oa w
        = (some (.errorsNew "invalid value for run ID"), w)
      ∧ s.Cancel validStringID ctx id oc w
        = (some (.errorsNew "invalid value for run ID"), w)
      ∧ s.Discard validStringID ctx id od w
        = (some (.errorsNew "invalid value for run ID"), w)
      ∧ sv.Read validStringID ctx id w
        = ((none, some (.errorsNew "invalid value for state version ID")), w)
      ∧ sv.ReadCurrentForWorkspace validStringID ctx id w
        = ((none, some (.errorsNew "invalid value for workspace ID")), w) := by
  simp [runs.Read, runs.Apply, runs.Cancel, runs.Discard, stateVersions.Read,
    stateVersions.ReadCurrentForWorkspace, h]

/-- Witness of C1: the empty ID, rejected by the sample validator, on the
echoing client. -/
theorem invalid_id_rejected_without_calls_witness :
    sampleValid "" = false
      ∧ (runs.Read sampleValid ⟨echoClient⟩ () "" World.init
          = ((none, some (.errorsNew "invalid value for run ID")), World.init)
        ∧ runs.Apply sampleValid ⟨echoClient⟩ () "" ⟨"lgtm", none⟩ World.init
          = (some (.errorsNew "invalid value for run ID"), World.init)
        ∧ runs.Cancel sampleValid ⟨echoClient⟩ () "" ⟨""⟩ World.init
          = (some (.errorsNew "invalid value for run ID"), World.init)
        ∧ runs.Discard sampleValid ⟨echoClient⟩ () "" ⟨""⟩ World.init
          = (some (.errorsNew "invalid value for run ID"), World.init)
        ∧ stateVersions.Read sampleValid ⟨echoClient⟩ () "" World.init
          = ((none, some (.errorsNew "invalid value for state version ID")), World.init)
        ∧ stateVersions.ReadCurrentForWorkspace sampleValid ⟨echoClient⟩ () "" World.init
          = ((none, some (.errorsNew "invalid value for workspace ID")), World.init)) :=
  ⟨by decide, invalid_id_rejected_without_calls sampleValid ⟨echoClient⟩ ⟨echoClient⟩ () ""
    ⟨"lgtm", none⟩ ⟨""⟩ ⟨""⟩ World.init (by decide)⟩

/-! ## `RunCreateOptions.valid` -/

/-- C10: `valid` reports the first failing check, workspace before
configuration version: workspace-required when Workspace is nil; else invalid
workspace ID when the validator rejects it; else configuration-version-required
when ConfigurationVersion is nil; else invalid configuration-version ID when
the validator rejects it; else nil. With both references nil the error is the
workspace-required one, and the result does not depend on the ID field. -/
theorem valid_reports_first_failing_check (validStringID : String → Bool)
    (o : RunCreateOptions Ext) :
    (o.Workspace = none →
        (o.valid validStringID : Option (GoError E))
          = some (.errorsNew "workspace is required"))
      ∧ (∀ ws, o.Workspace = some ws → validStringID ws.ID = false →
        (o.valid validStringID : Option (GoError E))
          = some (.errorsNew "invalid value for workspace ID"))
      ∧ (∀ ws, o.Workspace = some ws → validStringID ws.ID = true →
        o.ConfigurationVersion = none →
        (o.valid validStringID : Option (GoError E))
          = some (.errorsNew "configuration-version is required"))
      ∧ (∀ ws cv, o.Workspace = some ws → validStringID ws.ID = true →
        o.ConfigurationVersion = some cv → validStringID cv.ID = false →
        (o.valid validStringID : Option (GoError E))
          = some (.errorsNew "invalid value for configuration-version ID"))
      ∧ (∀ ws cv, o.Workspace = some ws → validStringID ws.ID = true →
        o.ConfigurationVersion = some cv → validStringID cv.ID = true →
        (o.valid validStringID : Option (GoError E)) = none)
      ∧ (o.Workspace = none → o.ConfigurationVersion = none →
        (o.valid validStringID : Option (GoError E))
          = some (.errorsNew "workspace is required"))
      ∧ (∀ id : String,
        (RunCreateOptions.valid validStringID { o with ID := id } : Option (GoError E))
          = o.valid validStringID) := by
  refine ⟨?_, ?_, ?_, ?_, ?_, ?_, ?_⟩
  · intro h; simp [RunCreateOptions.valid, h]
  · intro ws h hv; simp [RunCreateOptions.valid, h, hv]
  · intro ws h hv hc; simp [RunCreateOptions.valid, h, hv, hc]
  · intro ws cv h hv hc hcv; simp [RunCreateOptions.valid, h, hv, hc, hcv]
  · intro ws cv h hv hc hcv; simp [RunCreateOptions.valid, h, hv, hc, hcv]
  · intro h _; simp [RunCreateOptions.valid, h]
  · intro id; rfl

end claims

/-! ## `runs.Create` -/

section create

variable {σ Ctx Ext P E : Type}

/-- The validation of `Create` passes exactly when both references are
present with accepted IDs. -/
theorem valid_eq_none_iff (validStringID : String → Bool) (o : RunCreateOptions Ext) :
    (o.valid validStringID : Option (GoError E)) = none ↔
      (∃ ws, o.Workspace = some ws ∧ validStringID ws.ID = true)
        ∧ (∃ cv, o.ConfigurationVersion = some cv ∧ validStringID cv.ID = true) := by
  unfold RunCreateOptions.valid
  cases hw : o.Workspace with
  | none => simp
  | some ws =>
    cases hv : validStringID ws.ID with
    | false => simp [hv]
    | true =>
      cases hc : o.ConfigurationVersion with
      | none => simp [hv]
      | some cv =>
        cases hcv : validStringID cv.ID <;> simp [hv, hcv]

/-- What `Create` does once validation has passed, by the outcome of the two
client calls. -/
theorem Create_of_valid (validStringID : String → Bool) (s : runs σ Ctx Ext P E) (ctx : Ctx)
    (o : RunCreateOptions Ext) (w : World σ Ctx Ext P)
    (h : (o.valid validStringID : Option (GoError E)) = none) :
    s.Create validStringID ctx o w =
      (match s.client.newRequest "POST" "runs" (.runCreateOptions { o with ID := "" }) w.state with
      | (.error err, st) =>
        ((none, some err), { state := st, calls := w.calls ++
          [Call.newRequest "POST" "runs" (.runCreateOptions { o with ID := "" })] })
      | (.ok req, st) =>
        (match s.client.do_ ctx req .run Run.zero st with
        | ((_, some err), st') =>
          ((none, some err), { state := st', calls := w.calls ++
            [Call.newRequest "POST" "runs" (.runCreateOptions { o with ID := "" }),
              Call.do_ ctx req .run] })
        | ((r, none), st') =>
          ((some r, none), { state := st', calls := w.calls ++
            [Call.newRequest "POST" "runs" (.runCreateOptions { o with ID := "" }),
              Call.do_ ctx req .run] }))) := by
  unfold runs.Create
  simp only [h, Client.callNewRequest, Client.callDo]
  rcases hn : s.client.newRequest "POST" "runs" (.runCreateOptions { o with ID := "" }) w.state
    with ⟨(err | req), st⟩
  · rfl
  · simp only
    rcases hd : s.client.do_ ctx req .run Run.zero st with ⟨⟨r, (_ | err)⟩, st'⟩ <;> simp


/-- C2, counterexample: with ConfigurationVersion nil and Workspace nil too,
`Create` fails with the workspace-required error, not with the
configuration-version-required one. -/
theorem create_nil_configuration_version_counterexample :
    bothNil.ConfigurationVersion = none
      ∧ (runs.Create sampleValid ⟨echoClient⟩ () bothNil World.init).1
          = (none, some (.errorsNew "workspace is required"))
      ∧ (runs.Create sampleValid ⟨echoClient⟩ () bothNil World.init).1.2
          ≠ some (.errorsNew "configuration-version is required") := by
  decide

/-- C2, amended: `Create` calls `newRequest` if and only if Workspace is
non-nil with an accepted ID and ConfigurationVersion is non-nil with an
accepted ID; in every other case it returns a nil Run and a non-nil error and
leaves the world as it was (no `newRequest`, no `do`). A nil Workspace fails
with the workspace-required error; a nil ConfigurationVersion fails with the
configuration-version-required error when the Workspace is non-nil with an
accepted ID. -/
theorem create_reaches_client_iff (validStringID : String → Bool) (s : runs σ Ctx Ext P E)
    (ctx : Ctx) (o : RunCreateOptions Ext) (w : World σ Ctx Ext P) :
    (countNewRequest (s.Create validStringID ctx o w).2.calls = countNewRequest w.calls + 1
        ↔ ((∃ ws, o.Workspace = some ws ∧ validStringID ws.ID = true)
          ∧ (∃ cv, o.ConfigurationVersion = some cv ∧ validStringID cv.ID = true)))
      ∧ (¬ ((∃ ws, o.Workspace = some ws ∧ validStringID ws.ID = true)
          ∧ (∃ cv, o.ConfigurationVersion = some cv ∧ validStringID cv.ID = true)) →
        ∃ e, s.Create validStringID ctx o w = ((none, some e), w))
      ∧ (o.Workspace = none →
        s.Create validStringID ctx o w
          = ((none, some (.errorsNew "workspace is required")), w))
      ∧ (∀ ws, o.Workspace = some ws → validStringID ws.ID = true →
        o.ConfigurationVersion = none →
        s.Create validStringID ctx o w
          = ((none, some (.errorsNew "configuration-version is required")), w)) := by
  have key : ∀ e, (o.valid validStringID : Option (GoError E)) = some e →
      s.Create validStringID ctx o w = ((none, some e), w) := by
    intro e he
    simp [runs.Create, he]
  refine ⟨?_, ?_, ?_, ?_⟩
  · rw [← @valid_eq_none_iff Ext E validStringID o]
    constructor
    · intro hc
      cases hv : (o.valid validStringID : Option (GoError E)) with
      | none => rfl
      | some e =>
        rw [key e hv] at hc
        simp at hc
    · intro hv
      rw [Create_of_valid validStringID s ctx o w hv]
      rcases s.client.newRequest "POST" "runs" (.runCreateOptions { o with ID := "" }) w.state
        with ⟨(err | req), st⟩
      · simp [countNewRequest]
      · simp only
        rcases s.client.do_ ctx req .run Run.zero st with ⟨⟨r, (_ | err)⟩, st'⟩ <;>
          simp [countNewRequest]
  · intro hn
    rw [← @valid_eq_none_iff Ext E validStringID o] at hn
    cases hv : (o.valid validStringID : Option (GoError E)) with
    | none => exact absurd hv hn
    | some e => exact ⟨e, key e hv⟩
  · intro h
    exact key _ (by simp [RunCreateOptions.valid, h])
  · intro ws h hv hc
    exact key _ (by simp [RunCreateOptions.valid, h, hv, hc])


/-- C3: `Create` clears the caller-supplied ID before building the request.
For every options value that passes validation, the one `newRequest` call is
made with method POST, path runs and a body whose ID is the empty string and
whose Workspace and ConfigurationVersion are the caller's; and any options
value with the same two references (whatever its ID) gives the same result,
the same client state and the same call log. -/
theorem create_clears_id (validStringID : String → Bool) (s : runs σ Ctx Ext P E)
    (ctx : Ctx) (o : RunCreateOptions Ext) (w : World σ Ctx Ext P)
    (h : (o.valid validStringID : Option (GoError E)) = none) :
    (∃ tail, (s.Create validStringID ctx o w).2.calls
        = w.calls ++ Call.newRequest "POST" "runs" (.runCreateOptions
            { ID := "", ConfigurationVersion := o.ConfigurationVersion,
              Workspace := o.Workspace }) :: tail
        ∧ countNewRequest tail = 0)
      ∧ (∀ o2 : RunCreateOptions Ext, o2.Workspace = o.Workspace →
        o2.ConfigurationVersion = o.ConfigurationVersion →
        s.Create validStringID ctx o2 w = s.Create validStringID ctx o w) := by
  constructor
  · rw [Create_of_valid validStringID s ctx o w h]
    rcases s.client.newRequest "POST" "runs" (.runCreateOptions { o with ID := "" }) w.state
      with ⟨(err | req), st⟩
    · exact ⟨[], rfl, rfl⟩
    · simp only
      rcases s.client.do_ ctx req .run Run.zero st with ⟨⟨r, (_ | err)⟩, st'⟩
      · exact ⟨[Call.do_ ctx req .run], rfl, rfl⟩
      · exact ⟨[Call.do_ ctx req .run], rfl, rfl⟩
  · intro o2 hw hc
    have h2 : (o2.valid validStringID : Option (GoError E)) = none := by
      rw [← h]
      simp [RunCreateOptions.valid, hw, hc]
    have e : ({ o2 with ID := "" } : RunCreateOptions Ext) = { o with ID := "" } := by
      simp [hw, hc]
    rw [Create_of_valid validStringID s ctx o w h, Create_of_valid validStringID s ctx o2 w h2, e]

/-- Witness of C3: the scenario's references ws-abc123 and cv-abc123 with a
caller-supplied ID, on the echoing client. -/
theorem create_clears_id_witness :
    (sampleOptions.valid sampleValid : Option (GoError Unit)) = none
      ∧ ((∃ tail, (runs.Create sampleValid ⟨echoClient⟩ () sampleOptions World.init).2.calls
          = World.init.calls ++ Call.newRequest "POST" "runs" (.runCreateOptions
              { ID := "", ConfigurationVersion := sampleOptions.ConfigurationVersion,
                Workspace := sampleOptions.Workspace }) :: tail
          ∧ countNewRequest tail = 0)
        ∧ (∀ o2 : RunCreateOptions Unit, o2.Workspace = sampleOptions.Workspace →
          o2.ConfigurationVersion = sampleOptions.ConfigurationVersion →
          runs.Create sampleValid ⟨echoClient⟩ () o2 World.init
            = runs.Create sampleValid ⟨echoClient⟩ () sampleOptions World.init)) :=
  ⟨by decide, create_clears_id sampleValid ⟨echoClient⟩ () sampleOptions World.init (by decide)⟩

end create

/-! ## The operations on an accepted ID -/

section accepted

variable {σ Ctx Ext P E : Type}

/-- What `runs.Read` does for an accepted ID, by the outcome of the two client
calls. -/
theorem Read_of_valid (validStringID : String → Bool) (s : runs σ Ctx Ext P E) (ctx : Ctx)
    (id : String) (w : World σ Ctx Ext P) (h : validStringID id = true) :
    s.Read validStringID ctx id w =
      (match s.client.newRequest "GET" ("runs/" ++ QueryEscape id) (.runReadQuery { Include := "vcs-revision,status-transitions" }) w.state with
      | (.error err, st) =>
        ((none, some err), { state := st, calls := w.calls ++
          [Call.newRequest "GET" ("runs/" ++ QueryEscape id) (.runReadQuery { Include := "vcs-revision,status-transitions" })] })
      | (.ok req, st) =>
        (match s.client.do_ ctx req .run Run.zero st with
        | ((_, some err), st') =>
          ((none, some err), { state := st', calls := w.calls ++
            [Call.newRequest "GET" ("runs/" ++ QueryEscape id) (.runReadQuery { Include := "vcs-revision,status-transitions" }), Call.do_ ctx req .run] })
        | ((r, none), st') =>
          ((some r, none), { state := st', calls := w.calls ++
            [Call.newRequest "GET" ("runs/" ++ QueryEscape id) (.runReadQuery { Include := "vcs-revision,status-transitions" }), Call.do_ ctx req .run] }))) := by
  unfold runs.Read
  simp only [h, Client.callNewRequest, Client.callDo]
  rcases hn : s.client.newRequest "GET" ("runs/" ++ QueryEscape id) (.runReadQuery { Include := "vcs-revision,status-transitions" }) w.state with ⟨(err | req), st⟩
  · simp
  · simp only
    rcases hd : s.client.do_ ctx req .run Run.zero st with ⟨⟨r, (_ | err)⟩, st'⟩ <;> simp [hn, hd]

/-- What `Apply` does for an accepted ID, by the outcome of `newRequest`. -/
theorem Apply_of_valid (validStringID : String → Bool) (s : runs σ Ctx Ext P E) (ctx : Ctx)
    (id : String) (options : RunApplyOptions) (w : World σ Ctx Ext P)
    (h : validStringID id = true) :
    s.Apply validStringID ctx id options w =
      (match s.client.newRequest "POST" ("runs/" ++ PathEscape id ++ "/actions/apply") (.runApplyOptions options) w.state with
      | (.error err, st) =>
        (some err, { state := st, calls := w.calls ++
          [Call.newRequest "POST" ("runs/" ++ PathEscape id ++ "/actions/apply") (.runApplyOptions options)] })
      | (.ok req, st) =>
        ((s.client.do_ ctx { req with Header := req.Header.Set "Content-Type" "application/json" }
            .nil () st).1.2,
          { state := (s.client.do_ ctx
              { req with Header := req.Header.Set "Content-Type" "application/json" }
              .nil () st).2,
            calls := w.calls ++
              [Call.newRequest "POST" ("runs/" ++ PathEscape id ++ "/actions/apply") (.runApplyOptions options),
                Call.do_ ctx { req with Header := req.Header.Set "Content-Type" "application/json" }
                  .nil] })) := by
  unfold runs.Apply
  simp only [h, Client.callNewRequest, Client.callDo]
  rcases hn : s.client.newRequest "POST" ("runs/" ++ PathEscape id ++ "/actions/apply") (.runApplyOptions options) w.state with ⟨(err | req), st⟩
  · simp
  · simp

/-- What `Cancel` does for an accepted ID, by the outcome of `newRequest`. -/
theorem Cancel_of_valid (validStringID : String → Bool) (s : runs σ Ctx Ext P E) (ctx : Ctx)
    (id : String) (options : RunCancelOptions) (w : World σ Ctx Ext P)
    (h : validStringID id = true) :
    s.Cancel validStringID ctx id options w =
      (match s.client.newRequest "POST" ("runs/" ++ PathEscape id ++ "/actions/cancel") (.runCancelOptions options) w.state with
      | (.error err, st) =>
        (some err, { state := st, calls := w.calls ++
          [Call.newRequest "POST" ("runs/" ++ PathEscape id ++ "/actions/cancel") (.runCancelOptions options)] })
      | (.ok req, st) =>
        ((s.client.do_ ctx { req with Header := req.Header.Set "Content-Type" "application/json" }
            .nil () st).1.2,
          { state := (s.client.do_ ctx
              { req with Header := req.Header.Set "Content-Type" "application/json" }
              .nil () st).2,
            calls := w.calls ++
              [Call.newRequest "POST" ("runs/" ++ PathEscape id ++ "/actions/cancel") (.runCancelOptions options),
                Call.do_ ctx { req with Header := req.Header.Set "Content-Type" "application/json" }
                  .nil] })) := by
  unfold runs.Cancel
  simp only [h, Client.callNewRequest, Client.callDo]
  rcases hn : s.client.newRequest "POST" ("runs/" ++ PathEscape id ++ "/actions/cancel") (.runCancelOptions options) w.state with ⟨(err | req), st⟩
  · simp
  · simp

/-- What `Discard` does for an accepted ID, by the outcome of `newRequest`. -/
theorem Discard_of_valid (validStringID : String → Bool) (s : runs σ Ctx Ext P E) (ctx : Ctx)
    (id : String) (options : RunDiscardOptions) (w : World σ Ctx Ext P)
    (h : validStringID id = true) :
    s.Discard validStringID ctx id options w =
      (match s.client.newRequest "POST" ("runs/" ++ PathEscape id ++ "/actions/discard") (.runDiscardOptions options) w.state with
      | (.error err, st) =>
        (some err, { state := st, calls := w.calls ++
          [Call.newRequest "POST" ("runs/" ++ PathEscape id ++ "/actions/discard") (.runDiscardOptions options)] })
      | (.ok req, st) =>
        ((s.client.do_ ctx { req with Header := req.Header.Set "Content-Type" "application/json" }
            .nil () st).1.2,
          { state := (s.client.do_ ctx
              { req with Header := req.Header.Set "Content-Type" "application/json" }
              .nil () st).2,
            calls := w.calls ++
              [Call.newRequest "POST" ("runs/" ++ PathEscape id ++ "/actions/discard") (.runDiscardOptions options),
                Call.do_ ctx { req with Header := req.Header.Set "Content-Type" "application/json" }
                  .nil] })) := by
  unfold runs.Discard
  simp only [h, Client.callNewRequest, Client.callDo]
  rcases hn : s.client.newRequest "POST" ("runs/" ++ PathEscape id ++ "/actions/discard") (.runDiscardOptions options) w.state with ⟨(err | req), st⟩
  · simp
  · simp

/-- What `stateVersions.Read` does for an accepted ID, by the outcome of the two
client calls. -/
theorem svRead_of_valid (validStringID : String → Bool) (s : stateVersions σ Ctx Ext P E) (ctx : Ctx)
    (id : String) (w : World σ Ctx Ext P) (h : validStringID id = true) :
    s.Read validStringID ctx id w =
      (match s.client.newRequest "GET" ("state-versions/" ++ PathEscape id) .nil w.state with
      | (.error err, st) =>
        ((none, some err), { state := st, calls := w.calls ++
          [Call.newRequest "GET" ("state-versions/" ++ PathEscape id) .nil] })
      | (.ok req, st) =>
        (match s.client.do_ ctx req .stateVersion StateVersion.zero st with
        | ((_, some err), st') =>
          ((none, some err), { state := st', calls := w.calls ++
            [Call.newRequest "GET" ("state-versions/" ++ PathEscape id) .nil, Call.do_ ctx req .stateVersion] })
        | ((r, none), st') =>
          ((some r, none), { state := st', calls := w.calls ++
            [Call.newRequest "GET" ("state-versions/" ++ PathEscape id) .nil, Call.do_ ctx req .stateVersion] }))) := by
  unfold stateVersions.Read
  simp only [h, Client.callNewRequest, Client.callDo]
  rcases hn : s.client.newRequest "GET" ("state-versions/" ++ PathEscape id) .nil w.state with ⟨(err | req), st⟩
  · simp
  · simp only
    rcases hd : s.client.do_ ctx req .stateVersion StateVersion.zero st with ⟨⟨r, (_ | err)⟩, st'⟩ <;> simp [hn, hd]

/-- What `stateVersions.ReadCurrentForWorkspace` does for an accepted ID, by the
outcome of the two client calls. -/
theorem svReadCurrent_of_valid (validStringID : String → Bool) (s : stateVersions σ Ctx Ext P E) (ctx : Ctx)
    (id : String) (w : World σ Ctx Ext P) (h : validStringID id = true) :
    s.ReadCurrentForWorkspace validStringID ctx id w =
      (match s.client.newRequest "GET" ("workspaces/" ++ PathEscape id ++ "/current-state-version") .nil w.state with
      | (.error err, st) =>
        ((none, some err), { state := st, calls := w.calls ++
          [Call.newRequest "GET" ("workspaces/" ++ PathEscape id ++ "/current-state-version") .nil] })
      | (.ok req, st) =>
        (match s.client.do_ ctx req .stateVersion StateVersion.zero st with
        | ((_, some err), st') =>
          ((none, some err), { state := st', calls := w.calls ++
            [Call.newRequest "GET" ("workspaces/" ++ PathEscape id ++ "/current-state-version") .nil, Call.do_ ctx req .stateVersion] })
        | ((r, none), st') =>
          ((some r, none), { state := st', calls := w.calls ++
            [Call.newRequest "GET" ("workspaces/" ++ PathEscape id ++ "/current-state-version") .nil, Call.do_ ctx req .stateVersion] }))) := by
  unfold stateVersions.ReadCurrentForWorkspace
  simp only [h, Client.callNewRequest, Client.callDo]
  rcases hn : s.client.newRequest "GET" ("workspaces/" ++ PathEscape id ++ "/current-state-version") .nil w.state with ⟨(err | req), st⟩
  · simp
  · simp only
    rcases hd : s.client.do_ ctx req .stateVersion StateVersion.zero st with ⟨⟨r, (_ | err)⟩, st'⟩ <;> simp [hn, hd]

end accepted

/-! ## The requests of the read operations -/

section reads

variable {σ Ctx Ext P E : Type}

/-- C4: for every run ID that passes validation, `runs.Read` calls
`newRequest` (once, as the first call it makes) with method GET, the path
"runs/" followed by the query-escaped ID, and a query value whose include
field is exactly "vcs-revision,status-transitions"; `url.QueryEscape` leaves
every ID made only of ASCII letters, digits, '-', '_' and '.' unchanged, so
for such an ID the path is "runs/" followed by the ID itself. -/
theorem read_request (validStringID : String → Bool) (s : runs σ Ctx Ext P E) (ctx : Ctx)
    (id : String) (w : World σ Ctx Ext P) (h : validStringID id = true) :
    (∃ tail, (s.Read validStringID ctx id w).2.calls
        = w.calls ++ Call.newRequest "GET" ("runs/" ++ QueryEscape id)
            (.runReadQuery { Include := "vcs-revision,status-transitions" }) :: tail
        ∧ countNewRequest tail = 0)
      ∧ (∀ id' : String, plainID id' = true → QueryEscape id' = id')
      ∧ (plainID id = true →
        ∃ tail, (s.Read validStringID ctx id w).2.calls
          = w.calls ++ Call.newRequest "GET" ("runs/" ++ id)
              (.runReadQuery { Include := "vcs-revision,status-transitions" }) :: tail
          ∧ countNewRequest tail = 0) := by
  have main : ∃ tail, (s.Read validStringID ctx id w).2.calls
        = w.calls ++ Call.newRequest "GET" ("runs/" ++ QueryEscape id)
            (.runReadQuery { Include := "vcs-revision,status-transitions" }) :: tail
        ∧ countNewRequest tail = 0 := by
    rw [Read_of_valid validStringID s ctx id w h]
    rcases s.client.newRequest "GET" ("runs/" ++ QueryEscape id)
      (.runReadQuery { Include := "vcs-revision,status-transitions" }) w.state
      with ⟨(err | req), st⟩
    · exact ⟨[], rfl, rfl⟩
    · simp only
      rcases s.client.do_ ctx req .run Run.zero st with ⟨⟨r, (_ | err)⟩, st'⟩
      · exact ⟨[Call.do_ ctx req .run], rfl, rfl⟩
      · exact ⟨[Call.do_ ctx req .run], rfl, rfl⟩
  refine ⟨main, fun id' hp => escape_plain id' .encodeQueryComponent hp, ?_⟩
  intro hp
  have e : QueryEscape id = id := escape_plain id .encodeQueryComponent hp
  rw [e] at main
  exact main

/-- Witness of C4: the run ID run-abc123 on the echoing client. -/
theorem read_request_witness :
    sampleValid "run-abc123" = true
      ∧ ((∃ tail, (runs.Read sampleValid ⟨echoClient⟩ () "run-abc123" World.init).2.calls
          = World.init.calls ++ Call.newRequest "GET" ("runs/" ++ QueryEscape "run-abc123")
              (.runReadQuery { Include := "vcs-revision,status-transitions" }) :: tail
          ∧ countNewRequest tail = 0)
        ∧ (∀ id' : String, plainID id' = true → QueryEscape id' = id')
        ∧ (plainID "run-abc123" = true →
          ∃ tail, (runs.Read sampleValid ⟨echoClient⟩ () "run-abc123" World.init).2.calls
            = World.init.calls ++ Call.newRequest "GET" ("runs/" ++ "run-abc123")
                (.runReadQuery { Include := "vcs-revision,status-transitions" }) :: tail
            ∧ countNewRequest tail = 0)) :=
  ⟨by decide, read_request sampleValid ⟨echoClient⟩ () "run-abc123" World.init (by decide)⟩

/-- C6: for every ID that passes validation, `stateVersions.Read` calls
`newRequest` with method GET, path "state-versions/" followed by the
path-escaped ID and a nil body, and `stateVersions.ReadCurrentForWorkspace`
calls it with method GET, path "workspaces/" + escaped ID +
"/current-state-version" and a nil body; `url.PathEscape` leaves every ID made
only of ASCII letters, digits, '-', '_' and '.' unchanged, so for such an ID
the paths hold the ID itself. -/
theorem state_version_requests (validStringID : String → Bool)
    (s : stateVersions σ Ctx Ext P E) (ctx : Ctx) (id : String) (w : World σ Ctx Ext P)
    (h : validStringID id = true) :
    (∃ tail, (s.Read validStringID ctx id w).2.calls
        = w.calls ++ Call.newRequest "GET" ("state-versions/" ++ PathEscape id) .nil :: tail
        ∧ countNewRequest tail = 0)
      ∧ (∃ tail, (s.ReadCurrentForWorkspace validStringID ctx id w).2.calls
        = w.calls ++ Call.newRequest "GET"
            ("workspaces/" ++ PathEscape id ++ "/current-state-version") .nil :: tail
        ∧ countNewRequest tail = 0)
      ∧ (∀ id' : String, plainID id' = true → PathEscape id' = id')
      ∧ (plainID id = true →
        (∃ tail, (s.Read validStringID ctx id w).2.calls
          = w.calls ++ Call.newRequest "GET" ("state-versions/" ++ id) .nil :: tail
          ∧ countNewRequest tail = 0)
        ∧ (∃ tail, (s.ReadCurrentForWorkspace validStringID ctx id w).2.calls
          = w.calls ++ Call.newRequest "GET"
              ("workspaces/" ++ id ++ "/current-state-version") .nil :: tail
          ∧ countNewRequest tail = 0)) := by
  have m1 : ∃ tail, (s.Read validStringID ctx id w).2.calls
        = w.calls ++ Call.newRequest "GET" ("state-versions/" ++ PathEscape id) .nil :: tail
        ∧ countNewRequest tail = 0 := by
    rw [svRead_of_valid validStringID s ctx id w h]
    rcases s.client.newRequest "GET" ("state-versions/" ++ PathEscape id) .nil w.state
      with ⟨(err | req), st⟩
    · exact ⟨[], rfl, rfl⟩
    · simp only
      rcases s.client.do_ ctx req .stateVersion StateVersion.zero st
        with ⟨⟨r, (_ | err)⟩, st'⟩
      · exact ⟨[Call.do_ ctx req .stateVersion], rfl, rfl⟩
      · exact ⟨[Call.do_ ctx req .stateVersion], rfl, rfl⟩
  have m2 : ∃ tail, (s.ReadCurrentForWorkspace validStringID ctx id w).2.calls
        = w.calls ++ Call.newRequest "GET"
            ("workspaces/" ++ PathEscape id ++ "/current-state-version") .nil :: tail
        ∧ countNewRequest tail = 0 := by
    rw [svReadCurrent_of_valid validStringID s ctx id w h]
    rcases s.client.newRequest "GET"
      ("workspaces/" ++ PathEscape id ++ "/current-state-version") .nil w.state
      with ⟨(err | req), st⟩
    · exact ⟨[], rfl, rfl⟩
    · simp only
      rcases s.client.do_ ctx req .stateVersion StateVersion.zero st
        with ⟨⟨r, (_ | err)⟩, st'⟩
      · exact ⟨[Call.do_ ctx req .stateVersion], rfl, rfl⟩
      · exact ⟨[Call.do_ ctx req .stateVersion], rfl, rfl⟩
  refine ⟨m1, m2, fun id' hp => escape_plain id' .encodePathSegment hp, ?_⟩
  intro hp
  have e : PathEscape id = id := escape_plain id .encodePathSegment hp
  rw [e] at m1 m2
  exact ⟨m1, m2⟩

/-- Witness of C6: the ID ws-abc123 on the echoing client. -/
theorem state_version_requests_witness :
    sampleValid "ws-abc123" = true
      ∧ ((∃ tail, (stateVersions.Read sampleValid ⟨echoClient⟩ () "ws-abc123" World.init).2.calls
          = World.init.calls
            ++ Call.newRequest "GET" ("state-versions/" ++ PathEscape "ws-abc123") .nil :: tail
          ∧ countNewRequest tail = 0)
        ∧ (∃ tail, (stateVersions.ReadCurrentForWorkspace sampleValid ⟨echoClient⟩ ()
              "ws-abc123" World.init).2.calls
          = World.init.calls ++ Call.newRequest "GET"
              ("workspaces/" ++ PathEscape "ws-abc123" ++ "/current-state-version") .nil :: tail
          ∧ countNewRequest tail = 0)
        ∧ (∀ id' : String, plainID id' = true → PathEscape id' = id')
        ∧ (plainID "ws-abc123" = true →
          (∃ tail, (stateVersions.Read sampleValid ⟨echoClient⟩ () "ws-abc123"
                World.init).2.calls
            = World.init.calls
              ++ Call.newRequest "GET" ("state-versions/" ++ "ws-abc123") .nil :: tail
            ∧ countNewRequest tail = 0)
          ∧ (∃ tail, (stateVersions.ReadCurrentForWorkspace sampleValid ⟨echoClient⟩ ()
                "ws-abc123" World.init).2.calls
            = World.init.calls ++ Call.newRequest "GET"
                ("workspaces/" ++ "ws-abc123" ++ "/current-state-version") .nil :: tail
            ∧ countNewRequest tail = 0))) :=
  ⟨by decide,
    state_version_requests sampleValid ⟨echoClient⟩ () "ws-abc123" World.init (by decide)⟩

end reads

/-! ## The requests of the transition operations -/

section transitions

variable {σ Ctx Ext P E : Type}

/-- Setting a header and reading it back gives the value set. -/
theorem Header.Get_Set (h : Header) (key value : String) :
    (h.Set key value).Get key = value := by
  simp [Header.Set, Header.Get, List.lookup]

/-- C5: for every run ID that passes validation and every options value,
`Apply`, `Cancel` and `Discard` each call `newRequest` (once, as the first
call) with method POST, the caller's options as body, and the path "runs/" +
path-escaped ID + "/actions/apply", "/actions/cancel", "/actions/discard"
respectively; when `newRequest` succeeds, the next and last call is `do` with
a nil decode target, on that request with its Content-Type header set to
"application/json"; `url.PathEscape` leaves every ID made only of ASCII
letters, digits, '-', '_' and '.' unchanged, so for such an ID the path holds
the ID itself. -/
theorem transition_requests (validStringID : String → Bool) (s : runs σ Ctx Ext P E)
    (ctx : Ctx) (id : String) (oa : RunApplyOptions) (oc : RunCancelOptions)
    (od : RunDiscardOptions) (w : World σ Ctx Ext P) (h : validStringID id = true) :
    (∃ tail, (s.Apply validStringID ctx id oa w).2.calls
        = w.calls ++ Call.newRequest "POST" ("runs/" ++ PathEscape id ++ "/actions/apply")
            (.runApplyOptions oa) :: tail
        ∧ countNewRequest tail = 0
        ∧ ∀ req st, s.client.newRequest "POST" ("runs/" ++ PathEscape id ++ "/actions/apply")
            (.runApplyOptions oa) w.state = (.ok req, st) →
          ∃ req' : Request _, tail = [Call.do_ ctx req' .nil]
            ∧ req'.Header.Get "Content-Type" = "application/json" ∧ req'.rest = req.rest)
      ∧ (∃ tail, (s.Cancel validStringID ctx id oc w).2.calls
        = w.calls ++ Call.newRequest "POST" ("runs/" ++ PathEscape id ++ "/actions/cancel")
            (.runCancelOptions oc) :: tail
        ∧ countNewRequest tail = 0
        ∧ ∀ req st, s.client.newRequest "POST" ("runs/" ++ PathEscape id ++ "/actions/cancel")
            (.runCancelOptions oc) w.state = (.ok req, st) →
          ∃ req' : Request _, tail = [Call.do_ ctx req' .nil]
            ∧ req'.Header.Get "Content-Type" = "application/json" ∧ req'.rest = req.rest)
      ∧ (∃ tail, (s.Discard validStringID ctx id od w).2.calls
        = w.calls ++ Call.newRequest "POST" ("runs/" ++ PathEscape id ++ "/actions/discard")
            (.runDiscardOptions od) :: tail
        ∧ countNewRequest tail = 0
        ∧ ∀ req st, s.client.newRequest "POST" ("runs/" ++ PathEscape id ++ "/actions/discard")
            (.runDiscardOptions od) w.state = (.ok req, st) →
          ∃ req' : Request _, tail = [Call.do_ ctx req' .nil]
            ∧ req'.Header.Get "Content-Type" = "application/json" ∧ req'.rest = req.rest)
      ∧ (∀ id' : String, plainID id' = true → PathEscape id' = id')
      ∧ (plainID id = true →
        (∃ tail, (s.Apply validStringID ctx id oa w).2.calls
          = w.calls ++ Call.newRequest "POST" ("runs/" ++ id ++ "/actions/apply")
              (.runApplyOptions oa) :: tail)
        ∧ (∃ tail, (s.Cancel validStringID ctx id oc w).2.calls
          = w.calls ++ Call.newRequest "POST" ("runs/" ++ id ++ "/actions/cancel")
              (.runCancelOptions oc) :: tail)
        ∧ (∃ tail, (s.Discard validStringID ctx id od w).2.calls
          = w.calls ++ Call.newRequest "POST" ("runs/" ++ id ++ "/actions/discard")
              (.runDiscardOptions od) :: tail)) := by
  have m1 : (∃ tail, (s.Apply validStringID ctx id oa w).2.calls
        = w.calls ++ Call.newRequest "POST" ("runs/" ++ PathEscape id ++ "/actions/apply")
            (.runApplyOptions oa) :: tail
        ∧ countNewRequest tail = 0
        ∧ ∀ req st, s.client.newRequest "POST" ("runs/" ++ PathEscape id ++ "/actions/apply")
            (.runApplyOptions oa) w.state = (.ok req, st) →
          ∃ req' : Request _, tail = [Call.do_ ctx req' .nil]
            ∧ req'.Header.Get "Content-Type" = "application/json" ∧ req'.rest = req.rest) := by
    rw [Apply_of_valid validStringID s ctx id oa w h]
    rcases hn : s.client.newRequest "POST" ("runs/" ++ PathEscape id ++ "/actions/apply")
      (.runApplyOptions oa) w.state with ⟨(err | req), st⟩
    · exact ⟨[], rfl, rfl, fun req st hr => by simp at hr⟩
    · refine ⟨_, rfl, rfl, fun req2 st2 hr => ?_⟩
      simp only [Prod.mk.injEq, Except.ok.injEq] at hr
      obtain ⟨rfl, rfl⟩ := hr
      exact ⟨_, rfl, Header.Get_Set _ _ _, rfl⟩
  have m2 : (∃ tail, (s.Cancel validStringID ctx id oc w).2.calls
        = w.calls ++ Call.newRequest "POST" ("runs/" ++ PathEscape id ++ "/actions/cancel")
            (.runCancelOptions oc) :: tail
        ∧ countNewRequest tail = 0
        ∧ ∀ req st, s.client.newRequest "POST" ("runs/" ++ PathEscape id ++ "/actions/cancel")
            (.runCancelOptions oc) w.state = (.ok req, st) →
          ∃ req' : Request _, tail = [Call.do_ ctx req' .nil]
            ∧ req'.Header.Get "Content-Type" = "application/json" ∧ req'.rest = req.rest) := by
    rw [Cancel_of_valid validStringID s ctx id oc w h]
    rcases hn : s.client.newRequest "POST" ("runs/" ++ PathEscape id ++ "/actions/cancel")
      (.runCancelOptions oc) w.state with ⟨(err | req), st⟩
    · exact ⟨[], rfl, rfl, fun req st hr => by simp at hr⟩
    · refine ⟨_, rfl, rfl, fun req2 st2 hr => ?_⟩
      simp only [Prod.mk.injEq, Except.ok.injEq] at hr
      obtain ⟨rfl, rfl⟩ := hr
      exact ⟨_, rfl, Header.Get_Set _ _ _, rfl⟩
  have m3 : (∃ tail, (s.Discard validStringID ctx id od w).2.calls
        = w.calls ++ Call.newRequest "POST" ("runs/" ++ PathEscape id ++ "/actions/discard")
            (.runDiscardOptions od) :: tail
        ∧ countNewRequest tail = 0
        ∧ ∀ req st, s.client.newRequest "POST" ("runs/" ++ PathEscape id ++ "/actions/discard")
            (.runDiscardOptions od) w.state = (.ok req, st) →
          ∃ req' : Request _, tail = [Call.do_ ctx req' .nil]
            ∧ req'.Header.Get "Content-Type" = "application/json" ∧ req'.rest = req.rest) := by
    rw [Discard_of_valid validStringID s ctx id od w h]
    rcases hn : s.client.newRequest "POST" ("runs/" ++ PathEscape id ++ "/actions/discard")
      (.runDiscardOptions od) w.state with ⟨(err | req), st⟩
    · exact ⟨[], rfl, rfl, fun req st hr => by simp at hr⟩
    · refine ⟨_, rfl, rfl, fun req2 st2 hr => ?_⟩
      simp only [Prod.mk.injEq, Except.ok.injEq] at hr
      obtain ⟨rfl, rfl⟩ := hr
      exact ⟨_, rfl, Header.Get_Set _ _ _, rfl⟩
  refine ⟨m1, m2, m3, fun id' hp => escape_plain id' .encodePathSegment hp, ?_⟩
  intro hp
  have e : PathEscape id = id := escape_plain id .encodePathSegment hp
  rw [e] at m1 m2 m3
  obtain ⟨t1, h1, _⟩ := m1
  obtain ⟨t2, h2, _⟩ := m2
  obtain ⟨t3, h3, _⟩ := m3
  exact ⟨⟨t1, h1⟩, ⟨t2, h2⟩, ⟨t3, h3⟩⟩

/-- Witness of C5: the run ID run-abc123 on the echoing client. -/
theorem transition_requests_witness :
    sampleValid "run-abc123" = true
      ∧ ((∃ tail, (runs.Apply sampleValid ⟨echoClient⟩ () "run-abc123" ⟨"lgtm", none⟩ World.init).2.calls
        = World.init.calls ++ Call.newRequest "POST" ("runs/" ++ PathEscape "run-abc123" ++ "/actions/apply")
            (.runApplyOptions ⟨"lgtm", none⟩) :: tail
        ∧ countNewRequest tail = 0
        ∧ ∀ req st, echoClient.newRequest "POST" ("runs/" ++ PathEscape "run-abc123" ++ "/actions/apply")
            (.runApplyOptions ⟨"lgtm", none⟩) World.init.state = (.ok req, st) →
          ∃ req' : Request _, tail = [Call.do_ () req' .nil]
            ∧ req'.Header.Get "Content-Type" = "application/json" ∧ req'.rest = req.rest)
      ∧ (∃ tail, (runs.Cancel sampleValid ⟨echoClient⟩ () "run-abc123" ⟨"stop"⟩ World.init).2.calls
        = World.init.calls ++ Call.newRequest "POST" ("runs/" ++ PathEscape "run-abc123" ++ "/actions/cancel")
            (.runCancelOptions ⟨"stop"⟩) :: tail
        ∧ countNewRequest tail = 0
        ∧ ∀ req st, echoClient.newRequest "POST" ("runs/" ++ PathEscape "run-abc123" ++ "/actions/cancel")
            (.runCancelOptions ⟨"stop"⟩) World.init.state = (.ok req, st) →
          ∃ req' : Request _, tail = [Call.do_ () req' .nil]
            ∧ req'.Header.Get "Content-Type" = "application/json" ∧ req'.rest = req.rest)
      ∧ (∃ tail, (runs.Discard sampleValid ⟨echoClient⟩ () "run-abc123" ⟨"drop"⟩ World.init).2.calls
        = World.init.calls ++ Call.newRequest "POST" ("runs/" ++ PathEscape "run-abc123" ++ "/actions/discard")
            (.runDiscardOptions ⟨"drop"⟩) :: tail
        ∧ countNewRequest tail = 0
        ∧ ∀ req st, echoClient.newRequest "POST" ("runs/" ++ PathEscape "run-abc123" ++ "/actions/discard")
            (.runDiscardOptions ⟨"drop"⟩) World.init.state = (.ok req, st) →
          ∃ req' : Request _, tail = [Call.do_ () req' .nil]
            ∧ req'.Header.Get "Content-Type" = "application/json" ∧ req'.rest = req.rest)
      ∧ (∀ id' : String, plainID id' = true → PathEscape id' = id')
      ∧ (plainID "run-abc123" = true →
        (∃ tail, (runs.Apply sampleValid ⟨echoClient⟩ () "run-abc123" ⟨"lgtm", none⟩ World.init).2.calls
          = World.init.calls ++ Call.newRequest "POST" ("runs/" ++ "run-abc123" ++ "/actions/apply")
              (.runApplyOptions ⟨"lgtm", none⟩) :: tail)
        ∧ (∃ tail, (runs.Cancel sampleValid ⟨echoClient⟩ () "run-abc123" ⟨"stop"⟩ World.init).2.calls
          = World.init.calls ++ Call.newRequest "POST" ("runs/" ++ "run-abc123" ++ "/actions/cancel")
              (.runCancelOptions ⟨"stop"⟩) :: tail)
        ∧ (∃ tail, (runs.Discard sampleValid ⟨echoClient⟩ () "run-abc123" ⟨"drop"⟩ World.init).2.calls
          = World.init.calls ++ Call.newRequest "POST" ("runs/" ++ "run-abc123" ++ "/actions/discard")
              (.runDiscardOptions ⟨"drop"⟩) :: tail))) :=
  ⟨by decide, transition_requests sampleValid ⟨echoClient⟩ () "run-abc123" ⟨"lgtm", none⟩
    ⟨"stop"⟩ ⟨"drop"⟩ World.init (by decide)⟩

end transitions

/-! ## Results are all-or-nothing -/

section results

variable {σ Ctx Ext P E : Type}

/-- C7: for every input, every validator and every behaviour of the client,
each of `runs.Create`, `runs.Read`, `stateVersions.Read` and
`stateVersions.ReadCurrentForWorkspace` returns either a non-nil object with a
nil error or a nil object with a non-nil error, never both and never
neither. -/
theorem no_mixed_result (validStringID : String → Bool) (s : runs σ Ctx Ext P E)
    (sv : stateVersions σ Ctx Ext P E) (ctx : Ctx) (o : RunCreateOptions Ext) (id : String)
    (w : World σ Ctx Ext P) :
    allOrNothing (s.Create validStringID ctx o w).1
      ∧ allOrNothing (s.Read validStringID ctx id w).1
      ∧ allOrNothing (sv.Read validStringID ctx id w).1
      ∧ allOrNothing (sv.ReadCurrentForWorkspace validStringID ctx id w).1 := by
  refine ⟨?_, ?_, ?_, ?_⟩
  · cases hv : (o.valid validStringID : Option (GoError E)) with
    | some e => simp [runs.Create, hv, allOrNothing]
    | none =>
      rw [Create_of_valid validStringID s ctx o w hv]
      rcases s.client.newRequest "POST" "runs" (.runCreateOptions { o with ID := "" }) w.state
        with ⟨(err | req), st⟩
      · simp [allOrNothing]
      · simp only
        rcases s.client.do_ ctx req .run Run.zero st with ⟨⟨r, (_ | err)⟩, st'⟩ <;>
          simp [allOrNothing]
  · cases h : validStringID id with
    | false => simp [runs.Read, h, allOrNothing]
    | true =>
      rw [Read_of_valid validStringID s ctx id w h]
      rcases s.client.newRequest "GET" ("runs/" ++ QueryEscape id)
        (.runReadQuery { Include := "vcs-revision,status-transitions" }) w.state
        with ⟨(err | req), st⟩
      · simp [allOrNothing]
      · simp only
        rcases s.client.do_ ctx req .run Run.zero st with ⟨⟨r, (_ | err)⟩, st'⟩ <;>
          simp [allOrNothing]
  · cases h : validStringID id with
    | false => simp [stateVersions.Read, h, allOrNothing]
    | true =>
      rw [svRead_of_valid validStringID sv ctx id w h]
      rcases sv.client.newRequest "GET" ("state-versions/" ++ PathEscape id) .nil w.state
        with ⟨(err | req), st⟩
      · simp [allOrNothing]
      · simp only
        rcases sv.client.do_ ctx req .stateVersion StateVersion.zero st
          with ⟨⟨r, (_ | err)⟩, st'⟩ <;> simp [allOrNothing]
  · cases h : validStringID id with
    | false => simp [stateVersions.ReadCurrentForWorkspace, h, allOrNothing]
    | true =>
      rw [svReadCurrent_of_valid validStringID sv ctx id w h]
      rcases sv.client.newRequest "GET"
        ("workspaces/" ++ PathEscape id ++ "/current-state-version") .nil w.state
        with ⟨(err | req), st⟩
      · simp [allOrNothing]
      · simp only
        rcases sv.client.do_ ctx req .stateVersion StateVersion.zero st
          with ⟨⟨r, (_ | err)⟩, st'⟩ <;> simp [allOrNothing]

end results

/-! ## Errors of the client are passed on unchanged -/

section passthrough

variable {σ Ctx Ext P E : Type}

/-- C8: client errors are returned as they are. For each of the seven
operations on an input that passes local validation: if `newRequest` returns
an error e, the operation returns exactly e (with a nil object where there is
one) and the call log gains no `do` call; if `newRequest` succeeds and `do`
returns an error e, `Create`, `Read` and the two state-version reads return
exactly e with a nil object; and `Apply`, `Cancel` and `Discard` return
exactly the value `do` returns on the request with its Content-Type set, nil
included. -/
theorem client_errors_verbatim (validStringID : String → Bool) (s : runs σ Ctx Ext P E)
    (sv : stateVersions σ Ctx Ext P E) (ctx : Ctx) (id : String) (o : RunCreateOptions Ext)
    (oa : RunApplyOptions) (oc : RunCancelOptions) (od : RunDiscardOptions)
    (w : World σ Ctx Ext P) (h : validStringID id = true) :
    ((o.valid validStringID : Option (GoError E)) = none →
        (∀ e st, s.client.newRequest "POST" "runs" (.runCreateOptions { o with ID := "" }) w.state = (.error e, st) →
          (s.Create validStringID ctx o w).1 = (none, some e)
            ∧ countDo (s.Create validStringID ctx o w).2.calls = countDo w.calls)
        ∧ (∀ req st r e st', s.client.newRequest "POST" "runs" (.runCreateOptions { o with ID := "" }) w.state = (.ok req, st) →
          s.client.do_ ctx req .run Run.zero st = ((r, some e), st') →
          (s.Create validStringID ctx o w).1 = (none, some e)))
      ∧ (∀ e st, s.client.newRequest "GET" ("runs/" ++ QueryEscape id)
            (.runReadQuery { Include := "vcs-revision,status-transitions" }) w.state = (.error e, st) →
        (s.Read validStringID ctx id w).1 = (none, some e)
          ∧ countDo (s.Read validStringID ctx id w).2.calls = countDo w.calls)
      ∧ (∀ req st r e st', s.client.newRequest "GET" ("runs/" ++ QueryEscape id)
            (.runReadQuery { Include := "vcs-revision,status-transitions" }) w.state = (.ok req, st) →
        s.client.do_ ctx req .run Run.zero st = ((r, some e), st') →
        (s.Read validStringID ctx id w).1 = (none, some e))
      ∧ (∀ e st, sv.client.newRequest "GET" ("state-versions/" ++ PathEscape id)
            .nil w.state = (.error e, st) →
        (sv.Read validStringID ctx id w).1 = (none, some e)
          ∧ countDo (sv.Read validStringID ctx id w).2.calls = countDo w.calls)
      ∧ (∀ req st r e st', sv.client.newRequest "GET" ("state-versions/" ++ PathEscape id)
            .nil w.state = (.ok req, st) →
        sv.client.do_ ctx req .stateVersion StateVersion.zero st = ((r, some e), st') →
        (sv.Read validStringID ctx id w).1 = (none, some e))
      ∧ (∀ e st, sv.client.newRequest "GET" ("workspaces/" ++ PathEscape id ++ "/current-state-version")
            .nil w.state = (.error e, st) →
        (sv.ReadCurrentForWorkspace validStringID ctx id w).1 = (none, some e)
          ∧ countDo (sv.ReadCurrentForWorkspace validStringID ctx id w).2.calls = countDo w.calls)
      ∧ (∀ req st r e st', sv.client.newRequest "GET" ("workspaces/" ++ PathEscape id ++ "/current-state-version")
            .nil w.state = (.ok req, st) →
        sv.client.do_ ctx req .stateVersion StateVersion.zero st = ((r, some e), st') →
        (sv.ReadCurrentForWorkspace validStringID ctx id w).1 = (none, some e))
      ∧ (∀ e st, s.client.newRequest "POST" ("runs/" ++ PathEscape id ++ "/actions/apply")
            (.runApplyOptions oa) w.state = (.error e, st) →
        (s.Apply validStringID ctx id oa w).1 = some e
          ∧ countDo (s.Apply validStringID ctx id oa w).2.calls = countDo w.calls)
      ∧ (∀ req st, s.client.newRequest "POST" ("runs/" ++ PathEscape id ++ "/actions/apply")
            (.runApplyOptions oa) w.state = (.ok req, st) →
        (s.Apply validStringID ctx id oa w).1
          = (s.client.do_ ctx { req with Header := req.Header.Set "Content-Type" "application/json" } .nil () st).1.2)
      ∧ (∀ e st, s.client.newRequest "POST" ("runs/" ++ PathEscape id ++ "/actions/cancel")
            (.runCancelOptions oc) w.state = (.error e, st) →
        (s.Cancel validStringID ctx id oc w).1 = some e
          ∧ countDo (s.Cancel validStringID ctx id oc w).2.calls = countDo w.calls)
      ∧ (∀ req st, s.client.newRequest "POST" ("runs/" ++ PathEscape id ++ "/actions/cancel")
            (.runCancelOptions oc) w.state = (.ok req, st) →
        (s.Cancel validStringID ctx id oc w).1
          = (s.client.do_ ctx { req with Header := req.Header.Set "Content-Type" "application/json" } .nil () st).1.2)
      ∧ (∀ e st, s.client.newRequest "POST" ("runs/" ++ PathEscape id ++ "/actions/discard")
            (.runDiscardOptions od) w.state = (.error e, st) →
        (s.Discard validStringID ctx id od w).1 = some e
          ∧ countDo (s.Discard validStringID ctx id od w).2.calls = countDo w.calls)
      ∧ (∀ req st, s.client.newRequest "POST" ("runs/" ++ PathEscape id ++ "/actions/discard")
            (.runDiscardOptions od) w.state = (.ok req, st) →
        (s.Discard validStringID ctx id od w).1
          = (s.client.do_ ctx { req with Header := req.Header.Set "Content-Type" "application/json" } .nil () st).1.2) := by
  refine ⟨?_, ?_, ?_, ?_, ?_, ?_, ?_, ?_, ?_, ?_, ?_, ?_, ?_⟩
  · intro hv
    constructor
    · intro e st hn
      rw [Create_of_valid validStringID s ctx o w hv, hn]
      simp [countDo]
    · intro req st r e st' hn hd
      rw [Create_of_valid validStringID s ctx o w hv, hn]
      simp only
      rw [hd]
  · intro e st hn
    rw [Read_of_valid validStringID s ctx id w h, hn]
    simp [countDo]
  · intro req st r e st' hn hd
    rw [Read_of_valid validStringID s ctx id w h, hn]
    simp only
    rw [hd]
  · intro e st hn
    rw [svRead_of_valid validStringID sv ctx id w h, hn]
    simp [countDo]
  · intro req st r e st' hn hd
    rw [svRead_of_valid validStringID sv ctx id w h, hn]
    simp only
    rw [hd]
  · intro e st hn
    rw [svReadCurrent_of_valid validStringID sv ctx id w h, hn]
    simp [countDo]
  · intro req st r e st' hn hd
    rw [svReadCurrent_of_valid validStringID sv ctx id w h, hn]
    simp only
    rw [hd]
  · intro e st hn
    rw [Apply_of_valid validStringID s ctx id oa w h, hn]
    simp [countDo]
  · intro req st hn
    rw [Apply_of_valid validStringID s ctx id oa w h, hn]
  · intro e st hn
    rw [Cancel_of_valid validStringID s ctx id oc w h, hn]
    simp [countDo]
  · intro req st hn
    rw [Cancel_of_valid validStringID s ctx id oc w h, hn]
  · intro e st hn
    rw [Discard_of_valid validStringID s ctx id od w h, hn]
    simp [countDo]
  · intro req st hn
    rw [Discard_of_valid validStringID s ctx id od w h, hn]

/-- Witness of C8: the run ID run-abc123 with comment lgtm, on a client whose
`do` fails. -/
theorem client_errors_verbatim_witness :
    sampleValid "run-abc123" = true
      ∧ (((sampleOptions.valid sampleValid : Option (GoError Unit)) = none →
        (∀ e st, failDoClient.newRequest "POST" "runs" (.runCreateOptions { sampleOptions with ID := "" }) World.init.state = (.error e, st) →
          (runs.Create sampleValid ⟨failDoClient⟩ () sampleOptions World.init).1 = (none, some e)
            ∧ countDo (runs.Create sampleValid ⟨failDoClient⟩ () sampleOptions World.init).2.calls = countDo World.init.calls)
        ∧ (∀ req st r e st', failDoClient.newRequest "POST" "runs" (.runCreateOptions { sampleOptions with ID := "" }) World.init.state = (.ok req, st) →
          failDoClient.do_ () req .run Run.zero st = ((r, some e), st') →
          (runs.Create sampleValid ⟨failDoClient⟩ () sampleOptions World.init).1 = (none, some e)))
      ∧ (∀ e st, failDoClient.newRequest "GET" ("runs/" ++ QueryEscape "run-abc123")
            (.runReadQuery { Include := "vcs-revision,status-transitions" }) World.init.state = (.error e, st) →
        (runs.Read sampleValid ⟨failDoClient⟩ () "run-abc123" World.init).1 = (none, some e)
          ∧ countDo (runs.Read sampleValid ⟨failDoClient⟩ () "run-abc123" World.init).2.calls = countDo World.init.calls)
      ∧ (∀ req st r e st', failDoClient.newRequest "GET" ("runs/" ++ QueryEscape "run-abc123")
            (.runReadQuery { Include := "vcs-revision,status-transitions" }) World.init.state = (.ok req, st) →
        failDoClient.do_ () req .run Run.zero st = ((r, some e), st') →
        (runs.Read sampleValid ⟨failDoClient⟩ () "run-abc123" World.init).1 = (none, some e))
      ∧ (∀ e st, failDoClient.newRequest "GET" ("state-versions/" ++ PathEscape "run-abc123")
            .nil World.init.state = (.error e, st) →
        (stateVersions.Read sampleValid ⟨failDoClient⟩ () "run-abc123" World.init).1 = (none, some e)
          ∧ countDo (stateVersions.Read sampleValid ⟨failDoClient⟩ () "run-abc123" World.init).2.calls = countDo World.init.calls)
      ∧ (∀ req st r e st', failDoClient.newRequest "GET" ("state-versions/" ++ PathEscape "run-abc123")
            .nil World.init.state = (.ok req, st) →
        failDoClient.do_ () req .stateVersion StateVersion.zero st = ((r, some e), st') →
        (stateVersions.Read sampleValid ⟨failDoClient⟩ () "run-abc123" World.init).1 = (none, some e))
      ∧ (∀ e st, failDoClient.newRequest "GET" ("workspaces/" ++ PathEscape "run-abc123" ++ "/current-state-version")
            .nil World.init.state = (.error e, st) →
        (stateVersions.ReadCurrentForWorkspace sampleValid ⟨failDoClient⟩ () "run-abc123" World.init).1 = (none, some e)
          ∧ countDo (stateVersions.ReadCurrentForWorkspace sampleValid ⟨failDoClient⟩ () "run-abc123" World.init).2.calls = countDo World.init.calls)
      ∧ (∀ req st r e st', failDoClient.newRequest "GET" ("workspaces/" ++ PathEscape "run-abc123" ++ "/current-state-version")
            .nil World.init.state = (.ok req, st) →
        failDoClient.do_ () req .stateVersion StateVersion.zero st = ((r, some e), st') →
        (stateVersions.ReadCurrentForWorkspace sampleValid ⟨failDoClient⟩ () "run-abc123" World.init).1 = (none, some e))
      ∧ (∀ e st, failDoClient.newRequest "POST" ("runs/" ++ PathEscape "run-abc123" ++ "/actions/apply")
            (.runApplyOptions ⟨"lgtm", none⟩) World.init.state = (.error e, st) →
        (runs.Apply sampleValid ⟨failDoClient⟩ () "run-abc123" ⟨"lgtm", none⟩ World.init).1 = some e
          ∧ countDo (runs.Apply sampleValid ⟨failDoClient⟩ () "run-abc123" ⟨"lgtm", none⟩ World.init).2.calls = countDo World.init.calls)
      ∧ (∀ req st, failDoClient.newRequest "POST" ("runs/" ++ PathEscape "run-abc123" ++ "/actions/apply")
            (.runApplyOptions ⟨"lgtm", none⟩) World.init.state = (.ok req, st) →
        (runs.Apply sampleValid ⟨failDoClient⟩ () "run-abc123" ⟨"lgtm", none⟩ World.init).1
          = (failDoClient.do_ () { req with Header := req.Header.Set "Content-Type" "application/json" } .nil () st).1.2)
      ∧ (∀ e st, failDoClient.newRequest "POST" ("runs/" ++ PathEscape "run-abc123" ++ "/actions/cancel")
            (.runCancelOptions ⟨"stop"⟩) World.init.state = (.error e, st) →
        (runs.Cancel sampleValid ⟨failDoClient⟩ () "run-abc123" ⟨"stop"⟩ World.init).1 = some e
          ∧ countDo (runs.Cancel sampleValid ⟨failDoClient⟩ () "run-abc123" ⟨"stop"⟩ World.init).2.calls = countDo World.init.calls)
      ∧ (∀ req st, failDoClient.newRequest "POST" ("runs/" ++ PathEscape "run-abc123" ++ "/actions/cancel")
            (.runCancelOptions ⟨"stop"⟩) World.init.state = (.ok req, st) →
        (runs.Cancel sampleValid ⟨failDoClient⟩ () "run-abc123" ⟨"stop"⟩ World.init).1
          = (failDoClient.do_ () { req with Header := req.Header.Set "Content-Type" "application/json" } .nil () st).1.2)
      ∧ (∀ e st, failDoClient.newRequest "POST" ("runs/" ++ PathEscape "run-abc123" ++ "/actions/discard")
            (.runDiscardOptions ⟨"drop"⟩) World.init.state = (.error e, st) →
        (runs.Discard sampleValid ⟨failDoClient⟩ () "run-abc123" ⟨"drop"⟩ World.init).1 = some e
          ∧ countDo (runs.Discard sampleValid ⟨failDoClient⟩ () "run-abc123" ⟨"drop"⟩ World.init).2.calls = countDo World.init.calls)
      ∧ (∀ req st, failDoClient.newRequest "POST" ("runs/" ++ PathEscape "run-abc123" ++ "/actions/discard")
            (.runDiscardOptions ⟨"drop"⟩) World.init.state = (.ok req, st) →
        (runs.Discard sampleValid ⟨failDoClient⟩ () "run-abc123" ⟨"drop"⟩ World.init).1
          = (failDoClient.do_ () { req with Header := req.Header.Set "Content-Type" "application/json" } .nil () st).1.2)) :=
  ⟨by decide, client_errors_verbatim sampleValid ⟨failDoClient⟩ ⟨failDoClient⟩ () "run-abc123"
    sampleOptions ⟨"lgtm", none⟩ ⟨"stop"⟩ ⟨"drop"⟩ World.init (by decide)⟩

end passthrough

/-! ## One request per operation -/

section once

variable {σ Ctx Ext P E : Type}

/-- C9: each operation issues exactly one outbound request. For each of the
seven operations on an input that passes local validation, the call log gains
exactly one `newRequest` call, and when that `newRequest` succeeds it gains
exactly one `do` call, whatever `do` returns (no retry); and for every input
at all, valid or not, no operation adds more than one `do` call to the log. -/
theorem one_request_per_operation (validStringID : String → Bool) (s : runs σ Ctx Ext P E)
    (sv : stateVersions σ Ctx Ext P E) (ctx : Ctx) (id : String) (o : RunCreateOptions Ext)
    (oa : RunApplyOptions) (oc : RunCancelOptions) (od : RunDiscardOptions)
    (w : World σ Ctx Ext P) (h : validStringID id = true) :
    ((o.valid validStringID : Option (GoError E)) = none →
        countNewRequest (s.Create validStringID ctx o w).2.calls = countNewRequest w.calls + 1
        ∧ (∀ req st, s.client.newRequest "POST" "runs" (.runCreateOptions { o with ID := "" }) w.state = (.ok req, st) →
          countDo (s.Create validStringID ctx o w).2.calls = countDo w.calls + 1))
      ∧ (countNewRequest (s.Read validStringID ctx id w).2.calls
          = countNewRequest w.calls + 1
        ∧ (∀ req st, s.client.newRequest "GET" ("runs/" ++ QueryEscape id)
            (.runReadQuery { Include := "vcs-revision,status-transitions" }) w.state = (.ok req, st) →
          countDo (s.Read validStringID ctx id w).2.calls = countDo w.calls + 1))
      ∧ (countNewRequest (sv.Read validStringID ctx id w).2.calls
          = countNewRequest w.calls + 1
        ∧ (∀ req st, sv.client.newRequest "GET" ("state-versions/" ++ PathEscape id)
            .nil w.state = (.ok req, st) →
          countDo (sv.Read validStringID ctx id w).2.calls = countDo w.calls + 1))
      ∧ (countNewRequest (sv.ReadCurrentForWorkspace validStringID ctx id w).2.calls
          = countNewRequest w.calls + 1
        ∧ (∀ req st, sv.client.newRequest "GET" ("workspaces/" ++ PathEscape id ++ "/current-state-version")
            .nil w.state = (.ok req, st) →
          countDo (sv.ReadCurrentForWorkspace validStringID ctx id w).2.calls = countDo w.calls + 1))
      ∧ (countNewRequest (s.Apply validStringID ctx id oa w).2.calls
          = countNewRequest w.calls + 1
        ∧ (∀ req st, s.client.newRequest "POST" ("runs/" ++ PathEscape id ++ "/actions/apply")
            (.runApplyOptions oa) w.state = (.ok req, st) →
          countDo (s.Apply validStringID ctx id oa w).2.calls = countDo w.calls + 1))
      ∧ (countNewRequest (s.Cancel validStringID ctx id oc w).2.calls
          = countNewRequest w.calls + 1
        ∧ (∀ req st, s.client.newRequest "POST" ("runs/" ++ PathEscape id ++ "/actions/cancel")
            (.runCancelOptions oc) w.state = (.ok req, st) →
          countDo (s.Cancel validStringID ctx id oc w).2.calls = countDo w.calls + 1))
      ∧ (countNewRequest (s.Discard validStringID ctx id od w).2.calls
          = countNewRequest w.calls + 1
        ∧ (∀ req st, s.client.newRequest "POST" ("runs/" ++ PathEscape id ++ "/actions/discard")
            (.runDiscardOptions od) w.state = (.ok req, st) →
          countDo (s.Discard validStringID ctx id od w).2.calls = countDo w.calls + 1))
      ∧ (∀ (id' : String) (o' : RunCreateOptions Ext),
        countDo (s.Create validStringID ctx o' w).2.calls ≤ countDo w.calls + 1
        ∧ countDo (s.Read validStringID ctx id' w).2.calls ≤ countDo w.calls + 1
        ∧ countDo (sv.Read validStringID ctx id' w).2.calls ≤ countDo w.calls + 1
        ∧ countDo (sv.ReadCurrentForWorkspace validStringID ctx id' w).2.calls ≤ countDo w.calls + 1
        ∧ countDo (s.Apply validStringID ctx id' oa w).2.calls ≤ countDo w.calls + 1
        ∧ countDo (s.Cancel validStringID ctx id' oc w).2.calls ≤ countDo w.calls + 1
        ∧ countDo (s.Discard validStringID ctx id' od w).2.calls ≤ countDo w.calls + 1) := by
  refine ⟨?_, ?_, ?_, ?_, ?_, ?_, ?_, ?_⟩
  · intro hv
    rw [Create_of_valid validStringID s ctx o w hv]
    rcases s.client.newRequest "POST" "runs" (.runCreateOptions { o with ID := "" }) w.state
      with ⟨(err | req), st⟩
    · simp [countNewRequest, countDo]
    · simp only
      rcases s.client.do_ ctx req .run Run.zero st with ⟨⟨r, (_ | err)⟩, st'⟩ <;>
        simp [countNewRequest, countDo]
  · rw [Read_of_valid validStringID s ctx id w h]
    rcases s.client.newRequest "GET" ("runs/" ++ QueryEscape id)
          (.runReadQuery { Include := "vcs-revision,status-transitions" }) w.state
      with ⟨(err | req), st⟩
    · simp [countNewRequest, countDo]
    · simp only
      rcases s.client.do_ ctx req .run Run.zero st with ⟨⟨r, (_ | err)⟩, st'⟩ <;>
        simp [countNewRequest, countDo]
  · rw [svRead_of_valid validStringID sv ctx id w h]
    rcases sv.client.newRequest "GET" ("state-versions/" ++ PathEscape id)
          .nil w.state
      with ⟨(err | req), st⟩
    · simp [countNewRequest, countDo]
    · simp only
      rcases sv.client.do_ ctx req .stateVersion StateVersion.zero st with ⟨⟨r, (_ | err)⟩, st'⟩ <;>
        simp [countNewRequest, countDo]
  · rw [svReadCurrent_of_valid validStringID sv ctx id w h]
    rcases sv.client.newRequest "GET" ("workspaces/" ++ PathEscape id ++ "/current-state-version")
          .nil w.state
      with ⟨(err | req), st⟩
    · simp [countNewRequest, countDo]
    · simp only
      rcases sv.client.do_ ctx req .stateVersion StateVersion.zero st with ⟨⟨r, (_ | err)⟩, st'⟩ <;>
        simp [countNewRequest, countDo]
  · rw [Apply_of_valid validStringID s ctx id oa w h]
    rcases s.client.newRequest "POST" ("runs/" ++ PathEscape id ++ "/actions/apply")
          (.runApplyOptions oa) w.state
      with ⟨(err | req), st⟩
    · simp [countNewRequest, countDo]
    · simp [countNewRequest, countDo]
  · rw [Cancel_of_valid validStringID s ctx id oc w h]
    rcases s.client.newRequest "POST" ("runs/" ++ PathEscape id ++ "/actions/cancel")
          (.runCancelOptions oc) w.state
      with ⟨(err | req), st⟩
    · simp [countNewRequest, countDo]
    · simp [countNewRequest, countDo]
  · rw [Discard_of_valid validStringID s ctx id od w h]
    rcases s.client.newRequest "POST" ("runs/" ++ PathEscape id ++ "/actions/discard")
          (.runDiscardOptions od) w.state
      with ⟨(err | req), st⟩
    · simp [countNewRequest, countDo]
    · simp [countNewRequest, countDo]
  · intro id' o'
    refine ⟨?_, ?_, ?_, ?_, ?_, ?_, ?_⟩
    · cases hv : (o'.valid validStringID : Option (GoError E)) with
      | some e => simp [runs.Create, hv]
      | none =>
        rw [Create_of_valid validStringID s ctx o' w hv]
        rcases s.client.newRequest "POST" "runs" (.runCreateOptions { o' with ID := "" }) w.state
          with ⟨(err | req), st⟩
        · simp [countNewRequest, countDo]
        · simp only
          rcases s.client.do_ ctx req .run Run.zero st with ⟨⟨r, (_ | err)⟩, st'⟩ <;>
            simp [countNewRequest, countDo]
    · cases h' : validStringID id' with
      | false => simp [runs.Read, h']
      | true =>
        rw [Read_of_valid validStringID s ctx id' w h']
        rcases s.client.newRequest "GET" ("runs/" ++ QueryEscape id')
              (.runReadQuery { Include := "vcs-revision,status-transitions" }) w.state
          with ⟨(err | req), st⟩
        · simp [countNewRequest, countDo]
        · simp only
          rcases s.client.do_ ctx req .run Run.zero st with ⟨⟨r, (_ | err)⟩, st'⟩ <;>
            simp [countNewRequest, countDo]
    · cases h' : validStringID id' with
      | false => simp [stateVersions.Read, h']
      | true =>
        rw [svRead_of_valid validStringID sv ctx id' w h']
        rcases sv.client.newRequest "GET" ("state-versions/" ++ PathEscape id')
              .nil w.state
          with ⟨(err | req), st⟩
        · simp [countNewRequest, countDo]
        · simp only
          rcases sv.client.do_ ctx req .stateVersion StateVersion.zero st with ⟨⟨r, (_ | err)⟩, st'⟩ <;>
            simp [countNewRequest, countDo]
    · cases h' : validStringID id' with
      | false => simp [stateVersions.ReadCurrentForWorkspace, h']
      | true =>
        rw [svReadCurrent_of_valid validStringID sv ctx id' w h']
        rcases sv.client.newRequest "GET" ("workspaces/" ++ PathEscape id' ++ "/current-state-version")
              .nil w.state
          with ⟨(err | req), st⟩
        · simp [countNewRequest, countDo]
        · simp only
          rcases sv.client.do_ ctx req .stateVersion StateVersion.zero st with ⟨⟨r, (_ | err)⟩, st'⟩ <;>
            simp [countNewRequest, countDo]
    · cases h' : validStringID id' with
      | false => simp [runs.Apply, h']
      | true =>
        rw [Apply_of_valid validStringID s ctx id' oa w h']
        rcases s.client.newRequest "POST" ("runs/" ++ PathEscape id' ++ "/actions/apply")
              (.runApplyOptions oa) w.state
          with ⟨(err | req), st⟩
        · simp [countNewRequest, countDo]
        · simp [countNewRequest, countDo]
    · cases h' : validStringID id' with
      | false => simp [runs.Cancel, h']
      | true =>
        rw [Cancel_of_valid validStringID s ctx id' oc w h']
        rcases s.client.newRequest "POST" ("runs/" ++ PathEscape id' ++ "/actions/cancel")
              (.runCancelOptions oc) w.state
          with ⟨(err | req), st⟩
        · simp [countNewRequest, countDo]
        · simp [countNewRequest, countDo]
    · cases h' : validStringID id' with
      | false => simp [runs.Discard, h']
      | true =>
        rw [Discard_of_valid validStringID s ctx id' od w h']
        rcases s.client.newRequest "POST" ("runs/" ++ PathEscape id' ++ "/actions/discard")
              (.runDiscardOptions od) w.state
          with ⟨(err | req), st⟩
        · simp [countNewRequest, countDo]
        · simp [countNewRequest, countDo]

/-- Witness of C9: the run ID run-abc123 on a client whose `do` fails. -/
theorem one_request_per_operation_witness :
    sampleValid "run-abc123" = true
      ∧ (((sampleOptions.valid sampleValid : Option (GoError Unit)) = none →
        countNewRequest (runs.Create sampleValid ⟨failDoClient⟩ () sampleOptions World.init).2.calls = countNewRequest World.init.calls + 1
        ∧ (∀ req st, failDoClient.newRequest "POST" "runs" (.runCreateOptions { sampleOptions with ID := "" }) World.init.state = (.ok req, st) →
          countDo (runs.Create sampleValid ⟨failDoClient⟩ () sampleOptions World.init).2.calls = countDo World.init.calls + 1))
      ∧ (countNewRequest (runs.Read sampleValid ⟨failDoClient⟩ () "run-abc123" World.init).2.calls
          = countNewRequest World.init.calls + 1
        ∧ (∀ req st, failDoClient.newRequest "GET" ("runs/" ++ QueryEscape "run-abc123")
            (.runReadQuery { Include := "vcs-revision,status-transitions" }) World.init.state = (.ok req, st) →
          countDo (runs.Read sampleValid ⟨failDoClient⟩ () "run-abc123" World.init).2.calls = countDo World.init.calls + 1))
      ∧ (countNewRequest (stateVersions.Read sampleValid ⟨failDoClient⟩ () "run-abc123" World.init).2.calls
          = countNewRequest World.init.calls + 1
        ∧ (∀ req st, failDoClient.newRequest "GET" ("state-versions/" ++ PathEscape "run-abc123")
            .nil World.init.state = (.ok req, st) →
          countDo (stateVersions.Read sampleValid ⟨failDoClient⟩ () "run-abc123" World.init).2.calls = countDo World.init.calls + 1))
      ∧ (countNewRequest (stateVersions.ReadCurrentForWorkspace sampleValid ⟨failDoClient⟩ () "run-abc123" World.init).2.calls
          = countNewRequest World.init.calls + 1
        ∧ (∀ req st, failDoClient.newRequest "GET" ("workspaces/" ++ PathEscape "run-abc123" ++ "/current-state-version")
            .nil World.init.state = (.ok req, st) →
          countDo (stateVersions.ReadCurrentForWorkspace sampleValid ⟨failDoClient⟩ () "run-abc123" World.init).2.calls = countDo World.init.calls + 1))
      ∧ (countNewRequest (runs.Apply sampleValid ⟨failDoClient⟩ () "run-abc123" ⟨"lgtm", none⟩ World.init).2.calls
          = countNewRequest World.init.calls + 1
        ∧ (∀ req st, failDoClient.newRequest "POST" ("runs/" ++ PathEscape "run-abc123" ++ "/actions/apply")
            (.runApplyOptions ⟨"lgtm", none⟩) World.init.state = (.ok req, st) →
          countDo (runs.Apply sampleValid ⟨failDoClient⟩ () "run-abc123" ⟨"lgtm", none⟩ World.init).2.calls = countDo World.init.calls + 1))
      ∧ (countNewRequest (runs.Cancel sampleValid ⟨failDoClient⟩ () "run-abc123" ⟨"stop"⟩ World.init).2.calls
          = countNewRequest World.init.calls + 1
        ∧ (∀ req st, failDoClient.newRequest "POST" ("runs/" ++ PathEscape "run-abc123" ++ "/actions/cancel")
            (.runCancelOptions ⟨"stop"⟩) World.init.state = (.ok req, st) →
          countDo (runs.Cancel sampleValid ⟨failDoClient⟩ () "run-abc123" ⟨"stop"⟩ World.init).2.calls = countDo World.init.calls + 1))
      ∧ (countNewRequest (runs.Discard sampleValid ⟨failDoClient⟩ () "run-abc123" ⟨"drop"⟩ World.init).2.calls
          = countNewRequest World.init.calls + 1
        ∧ (∀ req st, failDoClient.newRequest "POST" ("runs/" ++ PathEscape "run-abc123" ++ "/actions/discard")
            (.runDiscardOptions ⟨"drop"⟩) World.init.state = (.ok req, st) →
          countDo (runs.Discard sampleValid ⟨failDoClient⟩ () "run-abc123" ⟨"drop"⟩ World.init).2.calls = countDo World.init.calls + 1))
      ∧ (∀ (id' : String) (o' : RunCreateOptions Unit),
        countDo (runs.Create sampleValid ⟨failDoClient⟩ () o' World.init).2.calls ≤ countDo World.init.calls + 1
        ∧ countDo (runs.Read sampleValid ⟨failDoClient⟩ () id' World.init).2.calls ≤ countDo World.init.calls + 1
        ∧ countDo (stateVersions.Read sampleValid ⟨failDoClient⟩ () id' World.init).2.calls ≤ countDo World.init.calls + 1
        ∧ countDo (stateVersions.ReadCurrentForWorkspace sampleValid ⟨failDoClient⟩ () id' World.init).2.calls ≤ countDo World.init.calls + 1
        ∧ countDo (runs.Apply sampleValid ⟨failDoClient⟩ () id' ⟨"lgtm", none⟩ World.init).2.calls ≤ countDo World.init.calls + 1
        ∧ countDo (runs.Cancel sampleValid ⟨failDoClient⟩ () id' ⟨"stop"⟩ World.init).2.calls ≤ countDo World.init.calls + 1
        ∧ countDo (runs.Discard sampleValid ⟨failDoClient⟩ () id' ⟨"drop"⟩ World.init).2.calls ≤ countDo World.init.calls + 1)) :=
  ⟨by decide, one_request_per_operation sampleValid ⟨failDoClient⟩ ⟨failDoClient⟩ ()
    "run-abc123" sampleOptions ⟨"lgtm", none⟩ ⟨"stop"⟩ ⟨"drop"⟩ World.init (by decide)⟩

end once

end scalr
